import Mathlib

/-!
# Shallow embedding of the Moreau-Jean time-stepping solver

This file embeds `src/solver/moreau_jean_solver.rs` (struct `MoreauJeanSolver`
and its methods `step`, `assemble_system`, `solve_velocity_constraints`,
`solve_position_constraints`, `save_cache`, `resize_buffers`,
`update_velocities_and_integrate`) into Lean and proves the specified
properties of assembly, sizing, phase ordering and integration.

The solver is generic over a scalar field `N: Real`; the embedding is generic
over a ring `R`.  External collaborators (the `Body`, `JointConstraint` and
`ContactModel` capabilities, the SOR-Prox solvers) are not part of the source
file: they are modelled from the spec as data or as abstract function
parameters, so every theorem quantifies over their behavior where it is
unconstrained.
-/

set_option linter.unusedSectionVars false

variable {R : Type} [CommRing R]

/-- Modelled from the spec: the `Body` capability (§3, §6).  It exposes a DOF
count, a status-dependent DOF count (`0` for non-dynamic bodies, the full DOF
count for dynamic ones — encoded by the `dynamic` flag), a companion id,
generalized velocity/acceleration, and a flag for active internal
constraints.  The `integrate` operation is kept abstract (a function
parameter of the step). -/
structure Body (R : Type) where
  ndofs : Nat
  dynamic : Bool
  companionId : Nat
  vel : List R
  acc : List R
  hasActiveInternalConstraints : Bool
deriving DecidableEq

/-- Modelled from the spec: `status_dependent_ndofs()` is `0` for non-dynamic
bodies and the full DOF count for dynamic ones. -/
def statusDependentNdofs (b : Body R) : Nat :=
  if b.dynamic then b.ndofs else 0

/-- Modelled from the spec: the external `BodySet`, a handle-indexed
collection of bodies.  A handle is an index; a `none` entry is a stale
handle that no longer resolves. -/
abbrev BodySet (R : Type) := List (Option (Body R))

/-- `bodies.body(h)` / `bodies.body_mut(h)`: resolve a handle, `none` when
stale. -/
def bodyAt (bs : BodySet R) (h : Nat) : Option (Body R) :=
  (bs.getD h none)

/-- Write a body back through its handle. -/
def setBody (bs : BodySet R) (h : Nat) (b : Body R) : BodySet R :=
  bs.set h (some b)

/-- Modelled from the spec: a collider contact manifold exposes the two body
handles involved (`m.body1()`, `m.body2()`); the contact geometry itself is
irrelevant to the solver core. -/
structure ColliderContactManifold where
  body1 : Nat
  body2 : Nat
deriving DecidableEq

/-- Modelled from the spec: the `JointConstraint` capability, one instance
per active joint.  `is_active(bodies)` is abstracted as a stored flag,
`num_velocity_constraints()` as `nvc`, and `anchors()` as the two body
handles.  Jacobian generation and impulse caching are abstract function
parameters of the step. -/
structure JointConstraint (R : Type) where
  active : Bool
  anchor1 : Nat
  anchor2 : Nat
  nvc : Nat
  cachedImpulses : List R
deriving DecidableEq

/-- Modelled from the spec: a velocity-level constraint holds Jacobian and
weighted-Jacobian ranges into the flat buffer, an effective-mass scalar, a
bias velocity, a cached impulse, and the two companion ids it couples. -/
structure VelocityConstraint (R : Type) where
  jacobianOffset : Nat
  weightedJacobianOffset : Nat
  jacobianLen : Nat
  invMass : R
  bias : R
  impulse : R
  companionId1 : Nat
  companionId2 : Nat
deriving DecidableEq

/-- Modelled from the spec: a position-level constraint (persistent
unilateral contact or multibody joint limit), used only by the position
solver. -/
structure PositionConstraint (R : Type) where
  jacobianOffset : Nat
  jacobianLen : Nat
  error : R
  companionId1 : Nat
  companionId2 : Nat
deriving DecidableEq

/-- Modelled from the spec: the velocity-level part of the constraint set,
partitioned into the four disjoint categories. -/
structure VelocityConstraints (R : Type) where
  unilateralGround : List (VelocityConstraint R)
  unilateral : List (VelocityConstraint R)
  bilateralGround : List (VelocityConstraint R)
  bilateral : List (VelocityConstraint R)
deriving DecidableEq

/-- Modelled from the spec: the position-level part of the constraint set. -/
structure PositionConstraints (R : Type) where
  unilateral : List (PositionConstraint R)
  multibodyLimits : List (PositionConstraint R)
deriving DecidableEq

/-- Modelled from the spec: typed storage for active constraints,
partitioned by category (`ConstraintSet`). -/
structure ConstraintSet (R : Type) where
  velocity : VelocityConstraints R
  position : PositionConstraints R
deriving DecidableEq

/-- `ConstraintSet::new()` / the state after `clear()`: all categories
empty. -/
def ConstraintSet.empty : ConstraintSet R :=
  { velocity := { unilateralGround := [], unilateral := [],
                  bilateralGround := [], bilateral := [] },
    position := { unilateral := [], multibodyLimits := [] } }

/-- `self.constraints.clear()`. -/
def ConstraintSet.clear (_cs : ConstraintSet R) : ConstraintSet R :=
  ConstraintSet.empty

/-- Modelled from the spec: the integration-parameters configuration object,
read-only during a step. -/
structure IntegrationParameters (R : Type) where
  dt : R
  maxVelocityIterations : Nat
  maxPositionIterations : Nat

/-- The fields of `MoreauJeanSolver` (minus the boxed contact model, whose
behavior is carried by abstract function parameters): the flat Jacobian
buffer, the velocity-correction vector `mj_lambda_vel`, the
external-acceleration vector `ext_vels`, the constraint set and the
internal-constraint body list. -/
structure MoreauJeanSolver (R : Type) where
  jacobians : List R
  mjLambdaVel : List R
  extVels : List R
  constraints : ConstraintSet R
  internalConstraints : List Nat
deriving DecidableEq

/-- `MoreauJeanSolver::new`. -/
def MoreauJeanSolver.new : MoreauJeanSolver R :=
  { jacobians := [], mjLambdaVel := [], extVels := [],
    constraints := ConstraintSet.empty, internalConstraints := [] }

/-- The mutable state threaded through constraint generation: the two write
cursors (`ground_j_id`, `j_id`), the Jacobian buffer and the constraint
set. -/
structure GenState (R : Type) where
  groundJId : Nat
  jId : Nat
  jacobians : List R
  constraints : ConstraintSet R
deriving DecidableEq

/-- Modelled from the spec: the external collaborators invoked by the step —
the contact model's `num_velocity_constraints`/`constraints`/`cache_impulses`,
each joint's `velocity_constraints`/`cache_impulses`, the two SOR-Prox
solvers, and each body's `integrate`.  All are unconstrained functions; the
theorems quantify over them. -/
structure StepExternals (R : Type) where
  cmNumVelocityConstraints : ColliderContactManifold → Nat
  jointVelocityConstraints : JointConstraint R → IntegrationParameters R →
    BodySet R → List R → GenState R → GenState R
  contactConstraints : IntegrationParameters R → BodySet R → List R →
    List ColliderContactManifold → GenState R → GenState R
  sorProxSolve : BodySet R → ConstraintSet R → List Nat → List R → List R →
    Nat → ConstraintSet R × List R
  nonlinearSorProxSolve : IntegrationParameters R → BodySet R →
    ConstraintSet R → List (JointConstraint R) → List Nat → List R → Nat →
    BodySet R × ConstraintSet R × List R
  jointCacheImpulses : JointConstraint R → ConstraintSet R →
    JointConstraint R
  contactCacheImpulses : ConstraintSet R → List R
  integrate : IntegrationParameters R → Body R → Body R

/-- The message of the `assert!` in `assemble_system`. -/
def assertMsg : String :=
  "Internal error: an island cannot contain a non-dynamic body."

/-- The first loop of `assemble_system`: walk the island, resolve each
handle (`try_continue!` skips stale ones), set the body's companion id to
the running DOF total, `assert!` that its status-dependent DOF count is
nonzero (a panic is modelled as `Except.error`), accumulate the total, and
record bodies with active internal constraints. -/
def assignLoop (bs : BodySet R) (systemNdofs : Nat) (internal : List Nat) :
    List Nat → Except String (BodySet R × Nat × List Nat)
  | [] => .ok (bs, systemNdofs, internal)
  | h :: rest =>
    match bodyAt bs h with
    | none => assignLoop bs systemNdofs internal rest
    | some body =>
      let body := { body with companionId := systemNdofs }
      let bs := setBody bs h body
      let ndofs := statusDependentNdofs body
      if ndofs = 0 then .error assertMsg
      else
        assignLoop bs (systemNdofs + ndofs)
          (if ndofs ≠ 0 ∧ body.hasActiveInternalConstraints then
            internal ++ [h] else internal) rest

/-- Overwrite `v[i .. i + blk.length)` with `blk`
(`rows_mut(i, blk.len())` receiving an overwriting `axpy`). -/
def writeBlock (v : List R) (i : Nat) (blk : List R) : List R :=
  v.take i ++ blk ++ v.drop (i + blk.length)

/-- The second loop of `assemble_system`: for each resolvable island body,
write `dt * generalized_acceleration` into its DOF block of `ext_vels`
(`self.ext_vels.rows_mut(id, accs.len()).axpy(params.dt, &accs, 0)`). -/
def buildExtVels (bs : BodySet R) (dt : R) : List Nat → List R → List R
  | [], ev => ev
  | h :: rest, ev =>
    match bodyAt bs h with
    | none => buildExtVels bs dt rest ev
    | some body =>
      buildExtVels bs dt rest
        (writeBlock ev body.companionId (body.acc.map (fun a => dt * a)))

/-- The joint part of the Jacobian-sizing pass: for each active joint whose
two anchor bodies resolve, add `nconstraints * 2 * (ndofs1 + ndofs2)` to the
ground total when either side has zero status-dependent DOFs, otherwise to
the paired total.  Returns `(jacobian_sz, ground_jacobian_sz)`. -/
def jointJacobianSizes (bs : BodySet R) : List (JointConstraint R) → Nat × Nat
  | [] => (0, 0)
  | g :: rest =>
    let s := jointJacobianSizes bs rest
    if g.active then
      match bodyAt bs g.anchor1, bodyAt bs g.anchor2 with
      | some body1, some body2 =>
        let ndofs1 := statusDependentNdofs body1
        let ndofs2 := statusDependentNdofs body2
        let sz := g.nvc * 2 * (ndofs1 + ndofs2)
        if (ndofs1 == 0) || (ndofs2 == 0) then (s.1, s.2 + sz)
        else (s.1 + sz, s.2)
      | _, _ => s
    else s

/-- The manifold part of the Jacobian-sizing pass: for each manifold whose
two bodies resolve, add `num_velocity_constraints(m) * (ndofs1 + ndofs2) * 2`
to the ground or paired total by the same zero-DOF test. -/
def manifoldJacobianSizes (cm : ColliderContactManifold → Nat)
    (bs : BodySet R) : List ColliderContactManifold → Nat × Nat
  | [] => (0, 0)
  | m :: rest =>
    let s := manifoldJacobianSizes cm bs rest
    match bodyAt bs m.body1, bodyAt bs m.body2 with
    | some body1, some body2 =>
      let ndofs1 := statusDependentNdofs body1
      let ndofs2 := statusDependentNdofs body2
      let sz := cm m * (ndofs1 + ndofs2) * 2
      if (ndofs1 == 0) || (ndofs2 == 0) then (s.1, s.2 + sz)
      else (s.1 + sz, s.2)
    | _, _ => s

/-- `Vec::resize(n, x)`: truncate to `n` elements, or pad with `x` up to
`n`; existing elements in the retained prefix are kept. -/
def resizeVec (v : List R) (n : Nat) (x : R) : List R :=
  v.take n ++ List.replicate (n - v.length) x

/-- The result of `assemble_system` up to (and excluding) constraint
generation: the companion-numbered bodies, the total island DOF count, the
rebuilt internal-constraint list, the freshly zeroed `ext_vels` (then filled
with `dt * acc` blocks) and `mj_lambda_vel` (`resize_buffers`), the cleared
constraint set, the resized Jacobian buffer, and the two initial write
cursors. -/
structure AssembledSystem (R : Type) where
  bodies : BodySet R
  systemNdofs : Nat
  internalConstraints : List Nat
  extVels : List R
  mjLambdaVel : List R
  jacobians : List R
  constraints : ConstraintSet R
  jId : Nat
  groundJId : Nat
deriving DecidableEq

/-- `assemble_system`, lines 83–167: clear the internal-constraint list and
number companions (`assignLoop`), `resize_buffers` (fresh zero vectors of
the island's DOF count), clear the constraint set, build `ext_vels`, size
the Jacobian buffer in one pass over joints and manifolds, resize it
(`Vec::resize`), and initialize the paired cursor `j_id = 0` and the ground
cursor `ground_j_id = jacobian_sz`. -/
def assemblePre (cm : ColliderContactManifold → Nat)
    (params : IntegrationParameters R) (bs : BodySet R)
    (joints : List (JointConstraint R))
    (manifolds : List ColliderContactManifold) (island : List Nat)
    (s : MoreauJeanSolver R) : Except String (AssembledSystem R) :=
  match assignLoop bs 0 [] island with
  | .error e => .error e
  | .ok (bs1, systemNdofs, internal) =>
    let mjLambdaVel := List.replicate systemNdofs (0 : R)
    let extVels0 := List.replicate systemNdofs (0 : R)
    let constraints := ConstraintSet.clear s.constraints
    let extVels := buildExtVels bs1 params.dt island extVels0
    let js := jointJacobianSizes bs1 joints
    let ms := manifoldJacobianSizes cm bs1 manifolds
    let jacobianSz := js.1 + ms.1
    let groundJacobianSz := js.2 + ms.2
    let jacobians := resizeVec s.jacobians (jacobianSz + groundJacobianSz) 0
    .ok { bodies := bs1, systemNdofs, internalConstraints := internal,
          extVels, mjLambdaVel, jacobians, constraints,
          jId := 0, groundJId := jacobianSz }

/-- The constraint-generation loop of `assemble_system` (lines 169–181):
each active joint's `velocity_constraints` advances the cursors and writes
into the Jacobian buffer and the constraint set. -/
def genJointsLoop (ext : StepExternals R) (params : IntegrationParameters R)
    (bs : BodySet R) (extVels : List R) :
    List (JointConstraint R) → GenState R → GenState R
  | [], st => st
  | g :: rest, st =>
    let st := if g.active then
      ext.jointVelocityConstraints g params bs extVels st else st
    genJointsLoop ext params bs extVels rest st

/-- `assemble_system` in full: the sizing/numbering prefix, then joint
constraint generation, then contact-model constraint generation. -/
def assembleSystem (ext : StepExternals R) (params : IntegrationParameters R)
    (bs : BodySet R) (joints : List (JointConstraint R))
    (manifolds : List ColliderContactManifold) (island : List Nat)
    (s : MoreauJeanSolver R) :
    Except String (MoreauJeanSolver R × BodySet R) :=
  match assemblePre ext.cmNumVelocityConstraints params bs joints
      manifolds island s with
  | .error e => .error e
  | .ok pre =>
    let g0 : GenState R :=
      { groundJId := pre.groundJId, jId := pre.jId,
        jacobians := pre.jacobians, constraints := pre.constraints }
    let g1 := genJointsLoop ext params pre.bodies pre.extVels joints g0
    let g2 := ext.contactConstraints params pre.bodies pre.extVels manifolds g1
    .ok ({ jacobians := g2.jacobians, mjLambdaVel := pre.mjLambdaVel,
           extVels := pre.extVels, constraints := g2.constraints,
           internalConstraints := pre.internalConstraints }, pre.bodies)

/-- `v.rows(i, n)`: the length-`n` slice of `v` starting at `i`. -/
def rows (v : List R) (i n : Nat) : List R :=
  (v.drop i).take n

/-- Componentwise vector addition (`+=` on vector slices). -/
def addVec (a b : List R) : List R :=
  List.zipWith (fun x y => x + y) a b

/-- `update_velocities_and_integrate`: for each resolvable island body, add
the `ext_vels` and `mj_lambda_vel` blocks at its companion id (length
`ndofs()`) into its generalized velocity, then `integrate` it; stale
handles are skipped. -/
def updateVelocitiesAndIntegrate (integrateFn : IntegrationParameters R → Body R → Body R)
    (params : IntegrationParameters R) (extVels mjLambdaVel : List R)
    (bs : BodySet R) : List Nat → BodySet R
  | [] => bs
  | h :: rest =>
    match bodyAt bs h with
    | none =>
      updateVelocitiesAndIntegrate integrateFn params extVels mjLambdaVel bs rest
    | some body =>
      let id := body.companionId
      let ndofs := body.ndofs
      let newVel := addVec (addVec body.vel (rows extVels id ndofs))
        (rows mjLambdaVel id ndofs)
      let body := integrateFn params { body with vel := newVel }
      updateVelocitiesAndIntegrate integrateFn params extVels mjLambdaVel
        (setBody bs h body) rest

/-- The body produced for one island entry by
`update_velocities_and_integrate`: velocity incremented by the `ext_vels`
and `mj_lambda_vel` blocks at the companion id, then integrated. -/
def integratedBody (integrateFn : IntegrationParameters R → Body R → Body R)
    (params : IntegrationParameters R) (extVels mjLambdaVel : List R)
    (b : Body R) : Body R :=
  let newVel := addVec (addVec b.vel (rows extVels b.companionId b.ndofs))
    (rows mjLambdaVel b.companionId b.ndofs)
  integrateFn params { b with vel := newVel }

/-- `save_cache`: write the solved impulses back into the contact model and
into every active joint. -/
def saveCache (ext : StepExternals R) (joints : List (JointConstraint R))
    (cs : ConstraintSet R) : List (JointConstraint R) × List R :=
  (joints.map (fun g => if g.active then ext.jointCacheImpulses g cs else g),
   ext.contactCacheImpulses cs)

/-- The phases of one tick, in the order `step` executes them. -/
inductive Phase
  | assemble
  | solveVelocity
  | cacheImpulses
  | integrate
  | solvePosition
deriving DecidableEq

/-- Everything `step` produces: the solver state, the mutated bodies, the
joints with refreshed impulse caches, the contact model's refreshed cache,
and the trace of executed phases. -/
structure StepOutput (R : Type) where
  solver : MoreauJeanSolver R
  bodies : BodySet R
  joints : List (JointConstraint R)
  contactCache : List R
  trace : List Phase

/-- `MoreauJeanSolver::step`: assemble the system, solve the velocity
constraints (SOR-Prox), save the impulse cache, update velocities and
integrate, then solve the position constraints (nonlinear SOR-Prox).  A
panic during assembly aborts the whole step. -/
def step (ext : StepExternals R) (params : IntegrationParameters R)
    (bs : BodySet R) (joints : List (JointConstraint R))
    (manifolds : List ColliderContactManifold) (island : List Nat)
    (s : MoreauJeanSolver R) : Except String (StepOutput R) :=
  match assembleSystem ext params bs joints manifolds island s with
  | .error e => .error e
  | .ok (s1, bs1) =>
    let t1 := [Phase.assemble]
    let solved := ext.sorProxSolve bs1 s1.constraints s1.internalConstraints
      s1.mjLambdaVel s1.jacobians params.maxVelocityIterations
    let t2 := t1 ++ [Phase.solveVelocity]
    let cached := saveCache ext joints solved.1
    let t3 := t2 ++ [Phase.cacheImpulses]
    let bs2 := updateVelocitiesAndIntegrate ext.integrate params s1.extVels
      solved.2 bs1 island
    let t4 := t3 ++ [Phase.integrate]
    let pos := ext.nonlinearSorProxSolve params bs2 solved.1 cached.1
      s1.internalConstraints s1.jacobians params.maxPositionIterations
    let t5 := t4 ++ [Phase.solvePosition]
    .ok { solver := { jacobians := pos.2.2, mjLambdaVel := solved.2,
                      extVels := s1.extVels, constraints := pos.2.1,
                      internalConstraints := s1.internalConstraints },
          bodies := pos.1, joints := cached.1, contactCache := cached.2,
          trace := t5 }

/-! ## Spec-side definitions

These express the claims' vocabulary (resolvability, status-dependent DOF
sums, ground/paired classification) over the embedded data model, to be
compared with what the embedded code computes. -/

/-- A handle resolves when the body set has a live body for it. -/
def resolves (bs : BodySet R) (h : Nat) : Bool :=
  (bodyAt bs h).isSome

/-- The status-dependent DOF count reachable through a handle (`0` for a
stale handle). -/
def statusNdofsAt (bs : BodySet R) (h : Nat) : Nat :=
  ((bodyAt bs h).map statusDependentNdofs).getD 0

/-- The sum of the status-dependent DOF counts of the island's bodies. -/
def islandNdofs (bs : BodySet R) (island : List Nat) : Nat :=
  (island.map (statusNdofsAt bs)).sum

/-- The internal-constraints flag reachable through a handle. -/
def hasInternalAt (bs : BodySet R) (h : Nat) : Bool :=
  ((bodyAt bs h).map Body.hasActiveInternalConstraints).getD false

/-- Every island body that resolves has a nonzero status-dependent DOF
count (the island invariant guarded by the `assert!`). -/
def islandOkB (bs : BodySet R) (island : List Nat) : Bool :=
  island.all (fun h => !(statusNdofsAt bs h == 0) || !(resolves bs h))

/-- Every resolvable island body's generalized acceleration and velocity
have exactly `ndofs` entries (well-formedness of the external bodies). -/
def accsFitB (bs : BodySet R) (island : List Nat) : Bool :=
  island.all (fun h =>
    match bodyAt bs h with
    | none => true
    | some b => b.acc.length == b.ndofs)

/-- Forget the companion id of a body (the only field companion numbering
writes). -/
def stripCompanion (b : Body R) : Body R :=
  { b with companionId := 0 }

/-- Two body sets agree everywhere except possibly on companion ids. -/
def SameUpToCompanion (bs bs' : BodySet R) : Prop :=
  ∀ h : Nat, (bodyAt bs h).map stripCompanion = (bodyAt bs' h).map stripCompanion

/-- A joint constraint is counted by the sizing pass when it is active and
both anchor bodies resolve. -/
def jointCounted (bs : BodySet R) (g : JointConstraint R) : Bool :=
  g.active && resolves bs g.anchor1 && resolves bs g.anchor2

/-- The zero-DOF test for a joint: at least one side has zero
status-dependent DOFs. -/
def jointIsGround (bs : BodySet R) (g : JointConstraint R) : Bool :=
  (statusNdofsAt bs g.anchor1 == 0) || (statusNdofsAt bs g.anchor2 == 0)

/-- The number of Jacobian scalars a joint requires:
`num_velocity_constraints × 2 × (ndofs1 + ndofs2)`. -/
def jointScalars (bs : BodySet R) (g : JointConstraint R) : Nat :=
  g.nvc * 2 * (statusNdofsAt bs g.anchor1 + statusNdofsAt bs g.anchor2)

/-- A contact manifold is counted by the sizing pass when both its bodies
resolve. -/
def manifoldCounted (bs : BodySet R) (m : ColliderContactManifold) : Bool :=
  resolves bs m.body1 && resolves bs m.body2

/-- The zero-DOF test for a manifold. -/
def manifoldIsGround (bs : BodySet R) (m : ColliderContactManifold) : Bool :=
  (statusNdofsAt bs m.body1 == 0) || (statusNdofsAt bs m.body2 == 0)

/-- The number of Jacobian scalars a manifold requires:
`num_velocity_constraints × 2 × (ndofs1 + ndofs2)`. -/
def manifoldScalars (cm : ColliderContactManifold → Nat) (bs : BodySet R)
    (m : ColliderContactManifold) : Nat :=
  cm m * 2 * (statusNdofsAt bs m.body1 + statusNdofsAt bs m.body2)

/-- The paired region's size: the scalar requirements of all counted
constraints both of whose sides have nonzero status-dependent DOFs. -/
def pairedJacobianSize (cm : ColliderContactManifold → Nat) (bs : BodySet R)
    (joints : List (JointConstraint R))
    (manifolds : List ColliderContactManifold) : Nat :=
  ((joints.filter (fun g => jointCounted bs g && !jointIsGround bs g)).map
    (jointScalars bs)).sum +
  ((manifolds.filter (fun m => manifoldCounted bs m && !manifoldIsGround bs m)).map
    (manifoldScalars cm bs)).sum

/-- The ground region's size: the scalar requirements of all counted
constraints at least one of whose sides has zero status-dependent DOFs. -/
def groundJacobianSize (cm : ColliderContactManifold → Nat) (bs : BodySet R)
    (joints : List (JointConstraint R))
    (manifolds : List ColliderContactManifold) : Nat :=
  ((joints.filter (fun g => jointCounted bs g && jointIsGround bs g)).map
    (jointScalars bs)).sum +
  ((manifolds.filter (fun m => manifoldCounted bs m && manifoldIsGround bs m)).map
    (manifoldScalars cm bs)).sum

/-- The per-body `dt * acc` blocks of the external-acceleration vector, in
island order, resolvable bodies only. -/
def extBlocks (bs : BodySet R) (dt : R) (island : List Nat) : List (List R) :=
  island.filterMap (fun h => (bodyAt bs h).map (fun b => b.acc.map (fun a => dt * a)))

/-! ## A concrete scenario (used by the witness theorems)

Two dynamic bodies (2 and 1 DOFs), one static body (status-dependent DOF
count `0`), one stale handle; three joints (one paired, one ground, one
inactive) and two manifolds (one ground, one paired).  The external
collaborators are instantiated with trivial functions, which the theorems
allow since they quantify over arbitrary ones. -/

def bodyA : Body ℤ :=
  { ndofs := 2, dynamic := true, companionId := 7, vel := [1, 2],
    acc := [3, 4], hasActiveInternalConstraints := true }

def bodyB : Body ℤ :=
  { ndofs := 1, dynamic := true, companionId := 9, vel := [5],
    acc := [6], hasActiveInternalConstraints := false }

def bodyC : Body ℤ :=
  { ndofs := 3, dynamic := false, companionId := 4, vel := [0, 0, 0],
    acc := [0, 0, 0], hasActiveInternalConstraints := false }

def bsW : BodySet ℤ := [some bodyA, some bodyB, none, some bodyC]

/-- An island holding the two dynamic bodies and one stale handle. -/
def islandW : List Nat := [0, 2, 1]

/-- An island that wrongly contains the non-dynamic body `bodyC`. -/
def islandBadW : List Nat := [0, 3, 1]

def jointsW : List (JointConstraint ℤ) :=
  [{ active := true, anchor1 := 0, anchor2 := 1, nvc := 3, cachedImpulses := [] },
   { active := true, anchor1 := 0, anchor2 := 3, nvc := 2, cachedImpulses := [] },
   { active := false, anchor1 := 0, anchor2 := 1, nvc := 5, cachedImpulses := [] }]

def manifoldsW : List ColliderContactManifold := [⟨0, 3⟩, ⟨0, 1⟩]

def paramsW : IntegrationParameters ℤ :=
  { dt := 2, maxVelocityIterations := 8, maxPositionIterations := 3 }

def extW : StepExternals ℤ :=
  { cmNumVelocityConstraints := fun _ => 2,
    jointVelocityConstraints := fun _ _ _ _ st => st,
    contactConstraints := fun _ _ _ _ st => st,
    sorProxSolve := fun _ cs _ mj _ _ => (cs, mj),
    nonlinearSorProxSolve := fun _ bs cs _ _ jac _ => (bs, cs, jac),
    jointCacheImpulses := fun g _ => g,
    contactCacheImpulses := fun _ => [],
    integrate := fun _ b => b }

/-- A previous-step solver state with leftover buffer contents, to exercise
the lifecycle claims. -/
def solverW : MoreauJeanSolver ℤ :=
  { jacobians := [5, -7], mjLambdaVel := [11], extVels := [13],
    constraints :=
      { velocity := { unilateralGround := [], unilateral := [],
                      bilateralGround := [],
                      bilateral := [{ jacobianOffset := 0,
                                      weightedJacobianOffset := 0,
                                      jacobianLen := 1, invMass := 1,
                                      bias := 0, impulse := 4,
                                      companionId1 := 0, companionId2 := 0 }] },
        position := { unilateral := [], multibodyLimits := [] } },
    internalConstraints := [99] }

/-- The scenario's dynamic bodies with companion ids already assigned (the
body set produced by companion numbering of `islandW` over `bsW`). -/
def bsW2 : BodySet ℤ :=
  [some { bodyA with companionId := 0 },
   some { bodyB with companionId := 2 }, none, some bodyC]

/-! ## Basic lemmas about handles and body-set updates -/

theorem bodyAt_eq (bs : BodySet R) (h : Nat) :
    bodyAt bs h = (bs[h]?).getD none := by
  simp [bodyAt, List.getD_eq_getElem?_getD]

theorem bodyAt_eq_some_iff {bs : BodySet R} {h : Nat} {b : Body R} :
    bodyAt bs h = some b ↔ bs[h]? = some (some b) := by
  rw [bodyAt_eq]
  cases hx : bs[h]? with
  | none => simp
  | some x => simp

theorem bodyAt_lt_length {bs : BodySet R} {h : Nat} {b : Body R}
    (hb : bodyAt bs h = some b) : h < bs.length := by
  by_contra hlt
  rw [bodyAt_eq_some_iff] at hb
  rw [List.getElem?_eq_none (by omega)] at hb
  exact Option.noConfusion hb

theorem length_setBody (bs : BodySet R) (h : Nat) (b : Body R) :
    (setBody bs h b).length = bs.length :=
  List.length_set bs h (some b)

theorem bodyAt_setBody_same {bs : BodySet R} {h : Nat} (b : Body R)
    (hlt : h < bs.length) : bodyAt (setBody bs h b) h = some b := by
  rw [bodyAt_eq_some_iff]
  simp [setBody, List.getElem?_set_self hlt]

theorem bodyAt_setBody_ne {bs : BodySet R} {h g : Nat} (b : Body R)
    (hne : g ≠ h) : bodyAt (setBody bs h b) g = bodyAt bs g := by
  rw [bodyAt_eq, bodyAt_eq]
  rw [setBody, List.getElem?_set_ne (Ne.symm hne)]

/-! ## Lemmas about `SameUpToCompanion` -/

theorem stripCompanion_set (b : Body R) (c : Nat) :
    stripCompanion { b with companionId := c } = stripCompanion b := rfl

theorem statusDependentNdofs_strip (b : Body R) :
    statusDependentNdofs (stripCompanion b) = statusDependentNdofs b := rfl

theorem SameUpToCompanion.refl (bs : BodySet R) : SameUpToCompanion bs bs :=
  fun _ => rfl

theorem SameUpToCompanion.trans {a b c : BodySet R}
    (hab : SameUpToCompanion a b) (hbc : SameUpToCompanion b c) :
    SameUpToCompanion a c :=
  fun h => (hab h).trans (hbc h)

theorem SameUpToCompanion.setBody {bs : BodySet R} {h : Nat} {b : Body R}
    (hb : bodyAt bs h = some b) (c : Nat) :
    SameUpToCompanion bs (setBody bs h { b with companionId := c }) := by
  intro g
  by_cases hg : g = h
  · subst hg
    rw [hb, bodyAt_setBody_same _ (bodyAt_lt_length hb)]
    simp [stripCompanion_set]
  · rw [bodyAt_setBody_ne _ hg]

theorem statusNdofsAt_eq_of_same {bs bs' : BodySet R}
    (hs : SameUpToCompanion bs bs') (h : Nat) :
    statusNdofsAt bs h = statusNdofsAt bs' h := by
  have key : ∀ (o : Option (Body R)),
      (o.map statusDependentNdofs).getD 0 =
        ((o.map stripCompanion).map statusDependentNdofs).getD 0 := by
    intro o
    cases o <;> simp [statusDependentNdofs_strip]
  unfold statusNdofsAt
  rw [key (bodyAt bs h), hs h, ← key (bodyAt bs' h)]

theorem resolves_eq_of_same {bs bs' : BodySet R}
    (hs : SameUpToCompanion bs bs') (h : Nat) :
    resolves bs h = resolves bs' h := by
  unfold resolves
  have := congrArg Option.isSome (hs h)
  simpa using this

theorem hasInternalAt_eq_of_same {bs bs' : BodySet R}
    (hs : SameUpToCompanion bs bs') (h : Nat) :
    hasInternalAt bs h = hasInternalAt bs' h := by
  have key : ∀ (o : Option (Body R)),
      (o.map Body.hasActiveInternalConstraints).getD false =
        ((o.map stripCompanion).map Body.hasActiveInternalConstraints).getD false := by
    intro o
    cases o <;> simp [stripCompanion]
  unfold hasInternalAt
  rw [key (bodyAt bs h), hs h, ← key (bodyAt bs' h)]

theorem acc_eq_of_same {bs bs' : BodySet R}
    (hs : SameUpToCompanion bs bs') {h : Nat} {b b' : Body R}
    (hb : bodyAt bs h = some b) (hb' : bodyAt bs' h = some b') :
    b.acc = b'.acc := by
  have := hs h
  rw [hb, hb'] at this
  have : stripCompanion b = stripCompanion b' := by simpa using this
  have := congrArg Body.acc this
  simpa [stripCompanion] using this

/-! ## Conversions for the Bool-valued well-formedness predicates -/

theorem islandOkB_iff {bs : BodySet R} {island : List Nat} :
    islandOkB bs island = true ↔
      ∀ h ∈ island, ∀ b : Body R, bodyAt bs h = some b →
        statusDependentNdofs b ≠ 0 := by
  unfold islandOkB
  rw [List.all_eq_true]
  constructor
  · intro H h hm b hb
    have := H h hm
    simp only [resolves, statusNdofsAt, hb, Option.map_some, Option.getD_some,
      Option.isSome_some, Bool.not_true, Bool.or_false, Bool.not_eq_true,
      beq_eq_false_iff_ne, ne_eq] at this
    simpa using this
  · intro H h hm
    cases hb : bodyAt bs h with
    | none => simp [resolves, hb]
    | some b =>
      have := H h hm b hb
      simp [resolves, statusNdofsAt, hb, this]

theorem accsFitB_iff {bs : BodySet R} {island : List Nat} :
    accsFitB bs island = true ↔
      ∀ h ∈ island, ∀ b : Body R, bodyAt bs h = some b →
        b.acc.length = b.ndofs := by
  unfold accsFitB
  rw [List.all_eq_true]
  constructor
  · intro H h hm b hb
    have := H h hm
    rw [hb] at this
    simpa using this
  · intro H h hm
    cases hb : bodyAt bs h with
    | none => simp [hb]
    | some b =>
      simpa using H h hm b hb

theorem islandNdofs_eq_of_same {bs bs' : BodySet R}
    (hs : SameUpToCompanion bs bs') (l : List Nat) :
    islandNdofs bs l = islandNdofs bs' l := by
  unfold islandNdofs
  congr 1
  exact List.map_congr_left fun h _ => statusNdofsAt_eq_of_same hs h

theorem islandOkB_eq_of_same {bs bs' : BodySet R}
    (hs : SameUpToCompanion bs bs') (l : List Nat) :
    islandOkB bs l = islandOkB bs' l := by
  unfold islandOkB
  induction l with
  | nil => rfl
  | cons h rest ih =>
    simp only [List.all_cons, ih, statusNdofsAt_eq_of_same hs h,
      resolves_eq_of_same hs h]

/-! ## The companion-numbering loop (`assignLoop`) -/

theorem statusDependentNdofs_setCompanion (b : Body R) (c : Nat) :
    statusDependentNdofs { b with companionId := c } =
      statusDependentNdofs b := rfl

theorem assignLoop_same {island : List Nat} :
    ∀ {bs : BodySet R} {sys : Nat} {intl : List Nat}
      {bs' : BodySet R} {sys' : Nat} {intl' : List Nat},
      assignLoop bs sys intl island = .ok (bs', sys', intl') →
      SameUpToCompanion bs bs' := by
  induction island with
  | nil =>
    intro bs sys intl bs' sys' intl' hok
    simp only [assignLoop, Except.ok.injEq, Prod.mk.injEq] at hok
    obtain ⟨rfl, -, -⟩ := hok
    exact SameUpToCompanion.refl bs
  | cons h rest ih =>
    intro bs sys intl bs' sys' intl' hok
    simp only [assignLoop] at hok
    cases hb : bodyAt bs h with
    | none =>
      rw [hb] at hok
      exact ih hok
    | some b =>
      rw [hb] at hok
      by_cases hz : statusDependentNdofs { b with companionId := sys } = 0
      · simp [hz] at hok
      · simp only [hz, if_false] at hok
        exact (SameUpToCompanion.setBody hb sys).trans (ih hok)

theorem assignLoop_untouched {island : List Nat} :
    ∀ {bs : BodySet R} {sys : Nat} {intl : List Nat}
      {bs' : BodySet R} {sys' : Nat} {intl' : List Nat},
      assignLoop bs sys intl island = .ok (bs', sys', intl') →
      ∀ g, g ∉ island → bodyAt bs' g = bodyAt bs g := by
  induction island with
  | nil =>
    intro bs sys intl bs' sys' intl' hok g _
    simp only [assignLoop, Except.ok.injEq, Prod.mk.injEq] at hok
    obtain ⟨rfl, -, -⟩ := hok
    rfl
  | cons h rest ih =>
    intro bs sys intl bs' sys' intl' hok g hg
    have hgh : g ≠ h := fun e => hg (e ▸ List.mem_cons_self h rest)
    have hgr : g ∉ rest := fun e => hg (List.mem_cons_of_mem h e)
    simp only [assignLoop] at hok
    cases hb : bodyAt bs h with
    | none =>
      rw [hb] at hok
      exact ih hok g hgr
    | some b =>
      rw [hb] at hok
      by_cases hz : statusDependentNdofs { b with companionId := sys } = 0
      · simp [hz] at hok
      · simp only [hz, if_false] at hok
        rw [ih hok g hgr]
        exact bodyAt_setBody_ne _ hgh

theorem assignLoop_sys {island : List Nat} :
    ∀ {bs : BodySet R} {sys : Nat} {intl : List Nat}
      {bs' : BodySet R} {sys' : Nat} {intl' : List Nat},
      assignLoop bs sys intl island = .ok (bs', sys', intl') →
      sys' = sys + islandNdofs bs island := by
  induction island with
  | nil =>
    intro bs sys intl bs' sys' intl' hok
    simp only [assignLoop, Except.ok.injEq, Prod.mk.injEq] at hok
    obtain ⟨-, rfl, -⟩ := hok
    simp [islandNdofs]
  | cons h rest ih =>
    intro bs sys intl bs' sys' intl' hok
    simp only [assignLoop] at hok
    cases hb : bodyAt bs h with
    | none =>
      rw [hb] at hok
      have := ih hok
      simp [islandNdofs, statusNdofsAt, hb] at *
      omega
    | some b =>
      rw [hb] at hok
      by_cases hz : statusDependentNdofs { b with companionId := sys } = 0
      · simp [hz] at hok
      · simp only [hz, if_false] at hok
        have hrec := ih hok
        have hsame : SameUpToCompanion bs
            (setBody bs h { b with companionId := sys }) :=
          SameUpToCompanion.setBody hb sys
        rw [← islandNdofs_eq_of_same hsame rest] at hrec
        have hst : statusNdofsAt bs h = statusDependentNdofs b := by
          simp [statusNdofsAt, hb]
        simp only [islandNdofs, List.map_cons, List.sum_cons, hst,
          statusDependentNdofs_setCompanion] at *
        omega

theorem assignLoop_internal {island : List Nat} :
    ∀ {bs : BodySet R} {sys : Nat} {intl : List Nat}
      {bs' : BodySet R} {sys' : Nat} {intl' : List Nat},
      assignLoop bs sys intl island = .ok (bs', sys', intl') →
      intl' = intl ++
        island.filter (fun g => resolves bs g && hasInternalAt bs g) := by
  induction island with
  | nil =>
    intro bs sys intl bs' sys' intl' hok
    simp only [assignLoop, Except.ok.injEq, Prod.mk.injEq] at hok
    obtain ⟨-, -, rfl⟩ := hok
    simp
  | cons h rest ih =>
    intro bs sys intl bs' sys' intl' hok
    simp only [assignLoop] at hok
    cases hb : bodyAt bs h with
    | none =>
      rw [hb] at hok
      have hres : resolves bs h = false := by simp [resolves, hb]
      rw [ih hok, List.filter_cons]
      simp [hres]
    | some b =>
      rw [hb] at hok
      by_cases hz : statusDependentNdofs { b with companionId := sys } = 0
      · simp [hz] at hok
      · simp only [] at hok
        rw [if_neg hz] at hok
        have hsame : SameUpToCompanion bs
            (setBody bs h { b with companionId := sys }) :=
          SameUpToCompanion.setBody hb sys
        have hfc : rest.filter
              (fun g => resolves (setBody bs h { b with companionId := sys }) g &&
                hasInternalAt (setBody bs h { b with companionId := sys }) g) =
            rest.filter (fun g => resolves bs g && hasInternalAt bs g) :=
          List.filter_congr (fun g _ => by
            rw [resolves_eq_of_same hsame g, hasInternalAt_eq_of_same hsame g])
        have hres : resolves bs h = true := by simp [resolves, hb]
        have hint : hasInternalAt bs h = b.hasActiveInternalConstraints := by
          simp [hasInternalAt, hb]
        rw [List.filter_cons]
        by_cases hflag : b.hasActiveInternalConstraints = true
        · rw [if_pos ⟨hz, hflag⟩] at hok
          have hrec := ih hok
          rw [hfc] at hrec
          simp [hres, hint, hflag, hrec]
        · have hflagf : b.hasActiveInternalConstraints = false := by
            simpa using hflag
          have hcond : ¬(statusDependentNdofs { b with companionId := sys } ≠ 0 ∧
              b.hasActiveInternalConstraints = true) := by
            rintro ⟨-, hfl⟩
            rw [hflagf] at hfl
            cases hfl
          rw [if_neg hcond] at hok
          have hrec := ih hok
          rw [hfc] at hrec
          simp [hres, hint, hflagf, hrec]

theorem assignLoop_ok_of_islandOk {island : List Nat} :
    ∀ {bs : BodySet R} {sys : Nat} {intl : List Nat},
      islandOkB bs island = true →
      ∃ out, assignLoop bs sys intl island = .ok out := by
  induction island with
  | nil =>
    intro bs sys intl _
    exact ⟨(bs, sys, intl), rfl⟩
  | cons h rest ih =>
    intro bs sys intl hok
    rw [islandOkB, List.all_cons, Bool.and_eq_true] at hok
    obtain ⟨hhead, htail⟩ := hok
    cases hb : bodyAt bs h with
    | none =>
      obtain ⟨out, hout⟩ := ih htail
      exact ⟨out, by simp only [assignLoop, hb]; exact hout⟩
    | some b =>
      have hres : resolves bs h = true := by simp [resolves, hb]
      have hnz : statusDependentNdofs b ≠ 0 := by
        simp only [hres, Bool.not_true, Bool.or_false, Bool.not_eq_true,
          beq_eq_false_iff_ne, ne_eq] at hhead
        simpa [statusNdofsAt, hb] using hhead
      have hz : ¬statusDependentNdofs { b with companionId := sys } = 0 := hnz
      have hsame : SameUpToCompanion bs
          (setBody bs h { b with companionId := sys }) :=
        SameUpToCompanion.setBody hb sys
      have htail' : islandOkB (setBody bs h { b with companionId := sys })
          rest = true := by
        rw [← islandOkB_eq_of_same hsame rest]
        exact htail
      obtain ⟨out, hout⟩ := ih htail'
      refine ⟨out, ?_⟩
      simp only [assignLoop, hb]
      rw [if_neg hz]
      exact hout

theorem assignLoop_error_of_not {island : List Nat} :
    ∀ {bs : BodySet R} {sys : Nat} {intl : List Nat},
      islandOkB bs island = false →
      assignLoop bs sys intl island = .error assertMsg := by
  induction island with
  | nil =>
    intro bs sys intl hbad
    simp [islandOkB] at hbad
  | cons h rest ih =>
    intro bs sys intl hbad
    rw [islandOkB, List.all_cons, Bool.and_eq_false_iff] at hbad
    cases hb : bodyAt bs h with
    | none =>
      have hres : resolves bs h = false := by simp [resolves, hb]
      have htail : rest.all
          (fun g => !(statusNdofsAt bs g == 0) || !(resolves bs g)) = false := by
        rcases hbad with hhead | htail
        · rw [hres] at hhead
          simp at hhead
        · exact htail
      simp only [assignLoop, hb]
      exact ih htail
    | some b =>
      have hres : resolves bs h = true := by simp [resolves, hb]
      by_cases hz : statusDependentNdofs b = 0
      · simp only [assignLoop, hb]
        rw [if_pos (by simpa [statusDependentNdofs_setCompanion] using hz)]
      · have htail : islandOkB bs rest = false := by
          rcases hbad with hhead | htail
          · exfalso
            rw [hres] at hhead
            simp only [Bool.not_true, Bool.or_false, Bool.not_eq_false,
              beq_iff_eq] at hhead
            exact hz (by simpa [statusNdofsAt, hb] using hhead)
          · exact htail
        have hsame : SameUpToCompanion bs
            (setBody bs h { b with companionId := sys }) :=
          SameUpToCompanion.setBody hb sys
        have htail' : islandOkB (setBody bs h { b with companionId := sys })
            rest = false := by
          rw [← islandOkB_eq_of_same hsame rest]
          exact htail
        simp only [assignLoop, hb]
        rw [if_neg (by simpa [statusDependentNdofs_setCompanion] using hz)]
        exact ih htail'

theorem assignLoop_companion {island : List Nat} :
    ∀ {bs : BodySet R} {sys : Nat} {intl : List Nat}
      {bs' : BodySet R} {sys' : Nat} {intl' : List Nat},
      island.Nodup →
      assignLoop bs sys intl island = .ok (bs', sys', intl') →
      ∀ i (hi : i < island.length) (b : Body R),
        bodyAt bs island[i] = some b →
        bodyAt bs' island[i] =
          some { b with companionId := sys + islandNdofs bs (island.take i) } := by
  induction island with
  | nil =>
    intro bs sys intl bs' sys' intl' _ _ i hi
    exact absurd hi (by simp)
  | cons h rest ih =>
    intro bs sys intl bs' sys' intl' hnd hok i hi b hb
    have hnotin : h ∉ rest := (List.nodup_cons.mp hnd).1
    have hndr : rest.Nodup := (List.nodup_cons.mp hnd).2
    simp only [assignLoop] at hok
    cases hbh : bodyAt bs h with
    | none =>
      rw [hbh] at hok
      cases i with
      | zero =>
        rw [List.getElem_cons_zero] at hb
        rw [hbh] at hb
        exact Option.noConfusion hb
      | succ j =>
        rw [List.getElem_cons_succ] at hb ⊢
        have hj : j < rest.length := by simpa using hi
        have := ih hndr hok j hj b hb
        rw [this]
        have hst : statusNdofsAt bs h = 0 := by simp [statusNdofsAt, hbh]
        simp [islandNdofs, List.take_succ_cons, hst]
    | some b0 =>
      rw [hbh] at hok
      by_cases hz : statusDependentNdofs { b0 with companionId := sys } = 0
      · simp [hz] at hok
      · simp only [] at hok
        rw [if_neg hz] at hok
        cases i with
        | zero =>
          rw [List.getElem_cons_zero] at hb ⊢
          rw [hbh] at hb
          obtain rfl : b0 = b := by injection hb
          have huntouched := assignLoop_untouched hok h hnotin
          rw [huntouched,
            bodyAt_setBody_same _ (bodyAt_lt_length hbh)]
          simp [islandNdofs]
        | succ j =>
          rw [List.getElem_cons_succ] at hb ⊢
          have hj : j < rest.length := by simpa using hi
          have hne : rest[j] ≠ h := by
            intro e
            exact hnotin (e ▸ List.getElem_mem hj)
          have hb1 : bodyAt (setBody bs h { b0 with companionId := sys })
              rest[j] = some b := by
            rw [bodyAt_setBody_ne _ hne]
            exact hb
          have hrec := ih hndr hok j hj b hb1
          rw [hrec]
          have hsame : SameUpToCompanion bs
              (setBody bs h { b0 with companionId := sys }) :=
            SameUpToCompanion.setBody hbh sys
          have hst : statusNdofsAt bs h = statusDependentNdofs b0 := by
            simp [statusNdofsAt, hbh]
          have htake : islandNdofs (setBody bs h { b0 with companionId := sys })
              (rest.take j) = islandNdofs bs (rest.take j) :=
            (islandNdofs_eq_of_same hsame (rest.take j)).symm
          rw [htake]
          have : sys + statusDependentNdofs { b0 with companionId := sys } +
              islandNdofs bs (rest.take j) =
              sys + islandNdofs bs ((h :: rest).take (j + 1)) := by
            simp only [List.take_succ_cons, islandNdofs, List.map_cons,
              List.sum_cons, statusDependentNdofs_setCompanion, hst]
            omega
          rw [this]

theorem assignLoop_skips_stale {island : List Nat} :
    ∀ {bs : BodySet R} {sys : Nat} {intl : List Nat},
      assignLoop bs sys intl island =
        assignLoop bs sys intl (island.filter (fun g => resolves bs g)) := by
  induction island with
  | nil => intro bs sys intl; rfl
  | cons h rest ih =>
    intro bs sys intl
    cases hb : bodyAt bs h with
    | none =>
      have hres : resolves bs h = false := by simp [resolves, hb]
      rw [List.filter_cons]
      simp only [hres, if_false, Bool.false_eq_true]
      simp only [assignLoop, hb]
      exact ih
    | some b =>
      have hres : resolves bs h = true := by simp [resolves, hb]
      rw [List.filter_cons]
      simp only [hres, if_true]
      simp only [assignLoop, hb]
      by_cases hz : statusDependentNdofs { b with companionId := sys } = 0
      · rw [if_pos hz, if_pos hz]
      · rw [if_neg hz, if_neg hz]
        have hsame : SameUpToCompanion bs
            (setBody bs h { b with companionId := sys }) :=
          SameUpToCompanion.setBody hb sys
        rw [ih]
        congr 1
        exact List.filter_congr fun g _ => (resolves_eq_of_same hsame g).symm

/-! ## The external-acceleration pass (`buildExtVels`) -/

theorem islandNdofs_nil (bs : BodySet R) : islandNdofs bs [] = 0 := rfl

theorem islandNdofs_cons (bs : BodySet R) (h : Nat) (l : List Nat) :
    islandNdofs bs (h :: l) = statusNdofsAt bs h + islandNdofs bs l := by
  simp [islandNdofs]

theorem extBlocks_nil (bs : BodySet R) (dt : R) : extBlocks bs dt [] = [] := rfl

theorem extBlocks_cons_none {bs : BodySet R} {h : Nat} (dt : R) (l : List Nat)
    (hb : bodyAt bs h = none) :
    extBlocks bs dt (h :: l) = extBlocks bs dt l := by
  simp [extBlocks, hb]

theorem extBlocks_cons_some {bs : BodySet R} {h : Nat} {b : Body R} (dt : R)
    (l : List Nat) (hb : bodyAt bs h = some b) :
    extBlocks bs dt (h :: l) =
      (b.acc.map (fun a => dt * a)) :: extBlocks bs dt l := by
  simp [extBlocks, hb]

theorem buildExtVels_skips_stale (bs : BodySet R) (dt : R) :
    ∀ (island : List Nat) (ev : List R),
      buildExtVels bs dt island ev =
        buildExtVels bs dt (island.filter (fun g => resolves bs g)) ev := by
  intro island
  induction island with
  | nil => intro ev; rfl
  | cons h rest ih =>
    intro ev
    cases hb : bodyAt bs h with
    | none =>
      have hres : resolves bs h = false := by simp [resolves, hb]
      rw [List.filter_cons]
      simp only [hres, if_false, Bool.false_eq_true]
      simp only [buildExtVels, hb]
      exact ih ev
    | some b =>
      have hres : resolves bs h = true := by simp [resolves, hb]
      rw [List.filter_cons]
      simp only [hres, if_true]
      simp only [buildExtVels, hb]
      exact ih _

theorem buildExtVels_tiles {dt : R} :
    ∀ (island : List Nat) (bsA : BodySet R) (pre : List R),
      (∀ i (hi : i < island.length) (b : Body R),
        bodyAt bsA island[i] = some b →
        b.companionId = pre.length + islandNdofs bsA (island.take i) ∧
          b.acc.length = statusDependentNdofs b) →
      buildExtVels bsA dt island
          (pre ++ List.replicate (islandNdofs bsA island) 0) =
        pre ++ (extBlocks bsA dt island).flatten := by
  intro island
  induction island with
  | nil =>
    intro bsA pre _
    simp [buildExtVels, extBlocks_nil, islandNdofs_nil]
  | cons h rest ih =>
    intro bsA pre H1
    cases hb : bodyAt bsA h with
    | none =>
      have hst : statusNdofsAt bsA h = 0 := by simp [statusNdofsAt, hb]
      have H1' : ∀ i (hi : i < rest.length) (b : Body R),
          bodyAt bsA rest[i] = some b →
          b.companionId = pre.length + islandNdofs bsA (rest.take i) ∧
            b.acc.length = statusDependentNdofs b := by
        intro i hi b hbi
        have := H1 (i + 1) (by simpa using Nat.succ_lt_succ hi) b
          (by rwa [List.getElem_cons_succ])
        rwa [List.take_succ_cons, islandNdofs_cons, hst, Nat.zero_add] at this
      simp only [buildExtVels, hb]
      rw [islandNdofs_cons, hst, Nat.zero_add, extBlocks_cons_none dt rest hb]
      exact ih bsA pre H1'
    | some b =>
      obtain ⟨hcomp, hlen⟩ := H1 0 (by simp) b (by simpa using hb)
      rw [List.take_zero, islandNdofs_nil, Nat.add_zero] at hcomp
      have hst : statusNdofsAt bsA h = statusDependentNdofs b := by
        simp [statusNdofsAt, hb]
      have hblk : (b.acc.map (fun a => dt * a)).length =
          statusDependentNdofs b := by
        rw [List.length_map]; exact hlen
      simp only [buildExtVels, hb]
      rw [islandNdofs_cons, hst]
      have hev : writeBlock
          (pre ++ List.replicate (statusDependentNdofs b +
            islandNdofs bsA rest) 0)
          b.companionId (b.acc.map (fun a => dt * a)) =
          (pre ++ b.acc.map (fun a => dt * a)) ++
            List.replicate (islandNdofs bsA rest) 0 := by
        unfold writeBlock
        rw [hcomp, hblk]
        have htake : (pre ++ List.replicate (statusDependentNdofs b +
            islandNdofs bsA rest) 0).take pre.length = pre := by
          rw [List.take_left]
        have hdrop : (pre ++ List.replicate (statusDependentNdofs b +
            islandNdofs bsA rest) 0).drop
              (pre.length + statusDependentNdofs b) =
            List.replicate (islandNdofs bsA rest) 0 := by
          rw [List.drop_append, List.drop_replicate]
          congr 1
          omega
        rw [htake, hdrop, List.append_assoc]
      rw [hev]
      have H1' : ∀ i (hi : i < rest.length) (b' : Body R),
          bodyAt bsA rest[i] = some b' →
          b'.companionId =
            (pre ++ b.acc.map (fun a => dt * a)).length +
              islandNdofs bsA (rest.take i) ∧
            b'.acc.length = statusDependentNdofs b' := by
        intro i hi b' hbi
        have := H1 (i + 1) (by simpa using Nat.succ_lt_succ hi) b'
          (by rwa [List.getElem_cons_succ])
        rw [List.take_succ_cons, islandNdofs_cons, hst] at this
        refine ⟨?_, this.2⟩
        rw [this.1, List.length_append, hblk]
        omega
      rw [ih bsA (pre ++ b.acc.map (fun a => dt * a)) H1',
        extBlocks_cons_some dt rest hb]
      simp [List.append_assoc]

theorem extBlocks_flatten_length {dt : R} :
    ∀ (island : List Nat) (bsA : BodySet R),
      (∀ i (hi : i < island.length) (b : Body R),
        bodyAt bsA island[i] = some b →
        b.acc.length = statusDependentNdofs b) →
      (extBlocks bsA dt island).flatten.length = islandNdofs bsA island := by
  intro island
  induction island with
  | nil => intro bsA _; simp [extBlocks_nil, islandNdofs_nil]
  | cons h rest ih =>
    intro bsA H
    have Hrest : ∀ i (hi : i < rest.length) (b : Body R),
        bodyAt bsA rest[i] = some b → b.acc.length = statusDependentNdofs b := by
      intro i hi b hbi
      exact H (i + 1) (by simpa using Nat.succ_lt_succ hi) b
        (by rwa [List.getElem_cons_succ])
    cases hb : bodyAt bsA h with
    | none =>
      rw [extBlocks_cons_none dt rest hb, islandNdofs_cons]
      have hst : statusNdofsAt bsA h = 0 := by simp [statusNdofsAt, hb]
      rw [hst, Nat.zero_add]
      exact ih bsA Hrest
    | some b =>
      have hlen := H 0 (by simp) b (by simpa using hb)
      rw [extBlocks_cons_some dt rest hb, islandNdofs_cons]
      have hst : statusNdofsAt bsA h = statusDependentNdofs b := by
        simp [statusNdofsAt, hb]
      simp only [List.flatten_cons, List.length_append, List.length_map,
        hlen, hst]
      rw [ih bsA Hrest]

theorem extBlocks_block_rows {dt : R} :
    ∀ (island : List Nat) (bsA : BodySet R) (pre : List R),
      (∀ i (hi : i < island.length) (b : Body R),
        bodyAt bsA island[i] = some b →
        b.companionId = pre.length + islandNdofs bsA (island.take i) ∧
          b.acc.length = statusDependentNdofs b) →
      ∀ i (hi : i < island.length) (b : Body R),
        bodyAt bsA island[i] = some b →
        rows (pre ++ (extBlocks bsA dt island).flatten)
            b.companionId (statusDependentNdofs b) =
          b.acc.map (fun a => dt * a) := by
  intro island
  induction island with
  | nil =>
    intro bsA pre _ i hi
    exact absurd hi (by simp)
  | cons h rest ih =>
    intro bsA pre H1 i hi b hb
    cases hbh : bodyAt bsA h with
    | none =>
      have hst : statusNdofsAt bsA h = 0 := by simp [statusNdofsAt, hbh]
      have H1' : ∀ i (hi : i < rest.length) (b' : Body R),
          bodyAt bsA rest[i] = some b' →
          b'.companionId = pre.length + islandNdofs bsA (rest.take i) ∧
            b'.acc.length = statusDependentNdofs b' := by
        intro j hj b' hbj
        have := H1 (j + 1) (by simpa using Nat.succ_lt_succ hj) b'
          (by rwa [List.getElem_cons_succ])
        rwa [List.take_succ_cons, islandNdofs_cons, hst, Nat.zero_add] at this
      cases i with
      | zero =>
        rw [List.getElem_cons_zero] at hb
        rw [hbh] at hb
        exact Option.noConfusion hb
      | succ j =>
        rw [List.getElem_cons_succ] at hb
        rw [extBlocks_cons_none dt rest hbh]
        exact ih bsA pre H1' j (by simpa using hi) b hb
    | some b0 =>
      obtain ⟨hcomp0, hlen0⟩ := H1 0 (by simp) b0 (by simpa using hbh)
      rw [List.take_zero, islandNdofs_nil, Nat.add_zero] at hcomp0
      have hst : statusNdofsAt bsA h = statusDependentNdofs b0 := by
        simp [statusNdofsAt, hbh]
      have hblk : (b0.acc.map (fun a => dt * a)).length =
          statusDependentNdofs b0 := by
        rw [List.length_map]; exact hlen0
      rw [extBlocks_cons_some dt rest hbh, List.flatten_cons,
        ← List.append_assoc]
      cases i with
      | zero =>
        rw [List.getElem_cons_zero] at hb
        rw [hbh] at hb
        obtain rfl : b0 = b := by injection hb
        unfold rows
        rw [hcomp0]
        have h1 : (pre ++ b0.acc.map (fun a => dt * a)) ++
            (extBlocks bsA dt rest).flatten =
            pre ++ (b0.acc.map (fun a => dt * a) ++
              (extBlocks bsA dt rest).flatten) := by
          rw [List.append_assoc]
        rw [h1, List.drop_left]
        rw [← hblk, List.take_left]
      | succ j =>
        rw [List.getElem_cons_succ] at hb
        have H1' : ∀ i (hi : i < rest.length) (b' : Body R),
            bodyAt bsA rest[i] = some b' →
            b'.companionId =
              (pre ++ b0.acc.map (fun a => dt * a)).length +
                islandNdofs bsA (rest.take i) ∧
              b'.acc.length = statusDependentNdofs b' := by
          intro jj hjj b' hbj
          have := H1 (jj + 1) (by simpa using Nat.succ_lt_succ hjj) b'
            (by rwa [List.getElem_cons_succ])
          rw [List.take_succ_cons, islandNdofs_cons, hst] at this
          refine ⟨?_, this.2⟩
          rw [this.1, List.length_append, hblk]
          omega
        exact ih bsA (pre ++ b0.acc.map (fun a => dt * a)) H1' j
          (by simpa using hi) b hb

theorem islandNdofs_coverage :
    ∀ (island : List Nat) (bsA : BodySet R) (p k : Nat),
      (∀ i (hi : i < island.length) (b : Body R),
        bodyAt bsA island[i] = some b →
        b.companionId = p + islandNdofs bsA (island.take i)) →
      k < islandNdofs bsA island →
      ∃ i, ∃ hi : i < island.length, ∃ b : Body R,
        bodyAt bsA island[i] = some b ∧
        b.companionId ≤ p + k ∧
        p + k < b.companionId + statusDependentNdofs b := by
  intro island
  induction island with
  | nil =>
    intro bsA p k _ hk
    rw [islandNdofs_nil] at hk
    exact absurd hk (by omega)
  | cons h rest ih =>
    intro bsA p k H1 hk
    rw [islandNdofs_cons] at hk
    cases hbh : bodyAt bsA h with
    | none =>
      have hst : statusNdofsAt bsA h = 0 := by simp [statusNdofsAt, hbh]
      have H1' : ∀ i (hi : i < rest.length) (b : Body R),
          bodyAt bsA rest[i] = some b →
          b.companionId = p + islandNdofs bsA (rest.take i) := by
        intro j hj b hbj
        have := H1 (j + 1) (by simpa using Nat.succ_lt_succ hj) b
          (by rwa [List.getElem_cons_succ])
        rwa [List.take_succ_cons, islandNdofs_cons, hst, Nat.zero_add] at this
      rw [hst, Nat.zero_add] at hk
      obtain ⟨i, hi, b, hbi, hlo, hhi⟩ := ih bsA p k H1' hk
      exact ⟨i + 1, by simpa using Nat.succ_lt_succ hi, b,
        by rwa [List.getElem_cons_succ], hlo, hhi⟩
    | some b0 =>
      have hcomp0 := H1 0 (by simp) b0 (by simpa using hbh)
      rw [List.take_zero, islandNdofs_nil, Nat.add_zero] at hcomp0
      have hst : statusNdofsAt bsA h = statusDependentNdofs b0 := by
        simp [statusNdofsAt, hbh]
      rw [hst] at hk
      by_cases hlt : k < statusDependentNdofs b0
      · exact ⟨0, by simp, b0, by simpa using hbh, by omega, by omega⟩
      · have H1' : ∀ i (hi : i < rest.length) (b : Body R),
            bodyAt bsA rest[i] = some b →
            b.companionId = (p + statusDependentNdofs b0) +
              islandNdofs bsA (rest.take i) := by
          intro j hj b hbj
          have := H1 (j + 1) (by simpa using Nat.succ_lt_succ hj) b
            (by rwa [List.getElem_cons_succ])
          rw [List.take_succ_cons, islandNdofs_cons, hst] at this
          rw [this]
          omega
        obtain ⟨i, hi, b, hbi, hlo, hhi⟩ :=
          ih bsA (p + statusDependentNdofs b0) (k - statusDependentNdofs b0)
            H1' (by omega)
        refine ⟨i + 1, by simpa using Nat.succ_lt_succ hi, b,
          by rwa [List.getElem_cons_succ], by omega, by omega⟩

/-! ## Elimination helpers for assembly -/

theorem status_eq_ndofs_of_ne_zero {b : Body R}
    (h : statusDependentNdofs b ≠ 0) : statusDependentNdofs b = b.ndofs := by
  unfold statusDependentNdofs at *
  cases hd : b.dynamic
  · rw [hd] at h; simp at h
  · simp

theorem exists_of_same {bs bs' : BodySet R} {h : Nat} {b' : Body R}
    (hs : SameUpToCompanion bs bs') (hb' : bodyAt bs' h = some b') :
    ∃ b : Body R, bodyAt bs h = some b ∧ stripCompanion b = stripCompanion b' := by
  have hsh := hs h
  rw [hb'] at hsh
  cases hb : bodyAt bs h with
  | none => rw [hb] at hsh; exact Option.noConfusion hsh
  | some b =>
    rw [hb] at hsh
    exact ⟨b, rfl, by simpa using hsh⟩

theorem resizeVec_length (v : List R) (n : Nat) (x : R) :
    (resizeVec v n x).length = n := by
  simp [resizeVec]
  omega

theorem assemblePre_elim {cm : ColliderContactManifold → Nat}
    {params : IntegrationParameters R} {bs : BodySet R}
    {joints : List (JointConstraint R)}
    {manifolds : List ColliderContactManifold} {island : List Nat}
    {s : MoreauJeanSolver R} {pre : AssembledSystem R}
    (hok : assemblePre cm params bs joints manifolds island s = .ok pre) :
    ∃ bs1 sys intl, assignLoop bs 0 [] island = .ok (bs1, sys, intl) ∧
      pre = { bodies := bs1, systemNdofs := sys, internalConstraints := intl,
              extVels := buildExtVels bs1 params.dt island
                (List.replicate sys (0 : R)),
              mjLambdaVel := List.replicate sys (0 : R),
              jacobians := resizeVec s.jacobians
                (((jointJacobianSizes bs1 joints).1 +
                   (manifoldJacobianSizes cm bs1 manifolds).1) +
                 ((jointJacobianSizes bs1 joints).2 +
                   (manifoldJacobianSizes cm bs1 manifolds).2)) 0,
              constraints := ConstraintSet.empty,
              jId := 0,
              groundJId := (jointJacobianSizes bs1 joints).1 +
                (manifoldJacobianSizes cm bs1 manifolds).1 } := by
  unfold assemblePre at hok
  cases ha : assignLoop bs 0 [] island with
  | error e => rw [ha] at hok; exact Except.noConfusion hok
  | ok out =>
    obtain ⟨bs1, sys, intl⟩ := out
    rw [ha] at hok
    simp only [Except.ok.injEq] at hok
    exact ⟨bs1, sys, intl, rfl, hok.symm⟩

theorem assemblePre_error {cm : ColliderContactManifold → Nat}
    {params : IntegrationParameters R} {bs : BodySet R}
    {joints : List (JointConstraint R)}
    {manifolds : List ColliderContactManifold} {island : List Nat}
    {s : MoreauJeanSolver R} (hbad : islandOkB bs island = false) :
    assemblePre cm params bs joints manifolds island s = .error assertMsg := by
  unfold assemblePre
  rw [assignLoop_error_of_not hbad]

theorem assemblePre_ok {cm : ColliderContactManifold → Nat}
    {params : IntegrationParameters R} {bs : BodySet R}
    {joints : List (JointConstraint R)}
    {manifolds : List ColliderContactManifold} {island : List Nat}
    {s : MoreauJeanSolver R} (hgood : islandOkB bs island = true) :
    ∃ pre, assemblePre cm params bs joints manifolds island s = .ok pre := by
  obtain ⟨out, hout⟩ :=
    @assignLoop_ok_of_islandOk R _ island bs 0 [] hgood
  obtain ⟨bs1, sys, intl⟩ := out
  exact ⟨_, by unfold assemblePre; rw [hout]⟩

theorem assembled_H1 {bs : BodySet R} {island : List Nat}
    {bs1 : BodySet R} {sys : Nat} {intl : List Nat}
    (hnd : island.Nodup) (hgood : islandOkB bs island = true)
    (hfit : accsFitB bs island = true)
    (ha : assignLoop bs 0 [] island = .ok (bs1, sys, intl)) :
    ∀ i (hi : i < island.length) (b' : Body R),
      bodyAt bs1 island[i] = some b' →
      b'.companionId = islandNdofs bs1 (island.take i) ∧
        b'.acc.length = statusDependentNdofs b' := by
  intro i hi b' hb'
  have hsame : SameUpToCompanion bs bs1 := assignLoop_same ha
  obtain ⟨b, hb, hstrip⟩ := exists_of_same hsame hb'
  have hcomp := assignLoop_companion hnd ha i hi b hb
  rw [hb'] at hcomp
  obtain rfl : b' = { b with companionId := 0 + islandNdofs bs (island.take i) } := by
    injection hcomp
  have hmem : island[i] ∈ island := List.getElem_mem hi
  have hnz : statusDependentNdofs b ≠ 0 :=
    islandOkB_iff.mp hgood island[i] hmem b hb
  have hacc : b.acc.length = b.ndofs :=
    accsFitB_iff.mp hfit island[i] hmem b hb
  constructor
  · rw [← islandNdofs_eq_of_same hsame (island.take i)]
    simp
  · simp only [statusDependentNdofs_setCompanion]
    rw [status_eq_ndofs_of_ne_zero hnz]
    exact hacc

/-! ## The Jacobian sizing pass -/

theorem jointJacobianSizes_spec (bs : BodySet R) :
    ∀ l : List (JointConstraint R),
      jointJacobianSizes bs l =
        (((l.filter (fun g => jointCounted bs g && !jointIsGround bs g)).map
            (jointScalars bs)).sum,
         ((l.filter (fun g => jointCounted bs g && jointIsGround bs g)).map
            (jointScalars bs)).sum) := by
  intro l
  induction l with
  | nil => simp [jointJacobianSizes]
  | cons g rest ih =>
    rw [List.filter_cons, List.filter_cons]
    cases hact : g.active with
    | false =>
      have hcnt : jointCounted bs g = false := by simp [jointCounted, hact]
      simp only [jointJacobianSizes, hact, Bool.false_eq_true, if_false, ih,
        hcnt, Bool.false_and]
    | true =>
      cases hb1 : bodyAt bs g.anchor1 with
      | none =>
        have hcnt : jointCounted bs g = false := by
          simp [jointCounted, resolves, hb1]
        simp only [jointJacobianSizes, hact, if_true, hb1, ih, hcnt,
          Bool.false_and, Bool.false_eq_true, if_false]
      | some b1 =>
        cases hb2 : bodyAt bs g.anchor2 with
        | none =>
          have hcnt : jointCounted bs g = false := by
            simp [jointCounted, resolves, hb2]
          simp only [jointJacobianSizes, hact, if_true, hb1, hb2, ih, hcnt,
            Bool.false_and, Bool.false_eq_true, if_false]
        | some b2 =>
          have hcnt : jointCounted bs g = true := by
            simp [jointCounted, hact, resolves, hb1, hb2]
          have hst1 : statusNdofsAt bs g.anchor1 = statusDependentNdofs b1 := by
            simp [statusNdofsAt, hb1]
          have hst2 : statusNdofsAt bs g.anchor2 = statusDependentNdofs b2 := by
            simp [statusNdofsAt, hb2]
          have hsc : jointScalars bs g =
              g.nvc * 2 * (statusDependentNdofs b1 + statusDependentNdofs b2) := by
            simp [jointScalars, hst1, hst2]
          have hgr : jointIsGround bs g =
              ((statusDependentNdofs b1 == 0) || (statusDependentNdofs b2 == 0)) := by
            simp [jointIsGround, hst1, hst2]
          cases hz : (statusDependentNdofs b1 == 0) ||
              (statusDependentNdofs b2 == 0) with
          | true =>
            simp only [jointJacobianSizes, hact, if_true, hb1, hb2, hz, ih,
              hcnt, hgr, Bool.true_and, Bool.not_true, Bool.false_eq_true,
              if_false, if_true, List.map_cons, List.sum_cons, hsc]
            rw [Prod.mk.injEq]
            exact ⟨rfl, by omega⟩
          | false =>
            simp only [jointJacobianSizes, hact, if_true, hb1, hb2, hz, ih,
              hcnt, hgr, Bool.true_and, Bool.not_false, Bool.false_eq_true,
              if_false, if_true, List.map_cons, List.sum_cons, hsc]
            rw [Prod.mk.injEq]
            exact ⟨by omega, rfl⟩

theorem manifoldJacobianSizes_spec (cm : ColliderContactManifold → Nat)
    (bs : BodySet R) :
    ∀ l : List ColliderContactManifold,
      manifoldJacobianSizes cm bs l =
        (((l.filter (fun m => manifoldCounted bs m && !manifoldIsGround bs m)).map
            (manifoldScalars cm bs)).sum,
         ((l.filter (fun m => manifoldCounted bs m && manifoldIsGround bs m)).map
            (manifoldScalars cm bs)).sum) := by
  intro l
  induction l with
  | nil => simp [manifoldJacobianSizes]
  | cons m rest ih =>
    rw [List.filter_cons, List.filter_cons]
    cases hb1 : bodyAt bs m.body1 with
    | none =>
      have hcnt : manifoldCounted bs m = false := by
        simp [manifoldCounted, resolves, hb1]
      simp only [manifoldJacobianSizes, hb1, ih, hcnt, Bool.false_and,
        Bool.false_eq_true, if_false]
    | some b1 =>
      cases hb2 : bodyAt bs m.body2 with
      | none =>
        have hcnt : manifoldCounted bs m = false := by
          simp [manifoldCounted, resolves, hb2]
        simp only [manifoldJacobianSizes, hb1, hb2, ih, hcnt, Bool.false_and,
          Bool.false_eq_true, if_false]
      | some b2 =>
        have hcnt : manifoldCounted bs m = true := by
          simp [manifoldCounted, resolves, hb1, hb2]
        have hst1 : statusNdofsAt bs m.body1 = statusDependentNdofs b1 := by
          simp [statusNdofsAt, hb1]
        have hst2 : statusNdofsAt bs m.body2 = statusDependentNdofs b2 := by
          simp [statusNdofsAt, hb2]
        have hsc : manifoldScalars cm bs m =
            cm m * (statusDependentNdofs b1 + statusDependentNdofs b2) * 2 := by
          simp [manifoldScalars, hst1, hst2]
          ring
        have hgr : manifoldIsGround bs m =
            ((statusDependentNdofs b1 == 0) || (statusDependentNdofs b2 == 0)) := by
          simp [manifoldIsGround, hst1, hst2]
        cases hz : (statusDependentNdofs b1 == 0) ||
            (statusDependentNdofs b2 == 0) with
        | true =>
          simp only [manifoldJacobianSizes, hb1, hb2, hz, ih, hcnt, hgr,
            Bool.true_and, Bool.not_true, Bool.false_eq_true, if_false,
            if_true, List.map_cons, List.sum_cons, hsc]
          rw [Prod.mk.injEq]
          exact ⟨rfl, by omega⟩
        | false =>
          simp only [manifoldJacobianSizes, hb1, hb2, hz, ih, hcnt, hgr,
            Bool.true_and, Bool.not_false, Bool.false_eq_true, if_false,
            if_true, List.map_cons, List.sum_cons, hsc]
          rw [Prod.mk.injEq]
          exact ⟨by omega, rfl⟩

theorem jointCounted_eq_of_same {bs bs' : BodySet R}
    (hs : SameUpToCompanion bs bs') (g : JointConstraint R) :
    jointCounted bs g = jointCounted bs' g := by
  unfold jointCounted
  rw [resolves_eq_of_same hs g.anchor1, resolves_eq_of_same hs g.anchor2]

theorem jointIsGround_eq_of_same {bs bs' : BodySet R}
    (hs : SameUpToCompanion bs bs') (g : JointConstraint R) :
    jointIsGround bs g = jointIsGround bs' g := by
  unfold jointIsGround
  rw [statusNdofsAt_eq_of_same hs g.anchor1, statusNdofsAt_eq_of_same hs g.anchor2]

theorem jointScalars_eq_of_same {bs bs' : BodySet R}
    (hs : SameUpToCompanion bs bs') (g : JointConstraint R) :
    jointScalars bs g = jointScalars bs' g := by
  unfold jointScalars
  rw [statusNdofsAt_eq_of_same hs g.anchor1, statusNdofsAt_eq_of_same hs g.anchor2]

theorem manifoldCounted_eq_of_same {bs bs' : BodySet R}
    (hs : SameUpToCompanion bs bs') (m : ColliderContactManifold) :
    manifoldCounted bs m = manifoldCounted bs' m := by
  unfold manifoldCounted
  rw [resolves_eq_of_same hs m.body1, resolves_eq_of_same hs m.body2]

theorem manifoldIsGround_eq_of_same {bs bs' : BodySet R}
    (hs : SameUpToCompanion bs bs') (m : ColliderContactManifold) :
    manifoldIsGround bs m = manifoldIsGround bs' m := by
  unfold manifoldIsGround
  rw [statusNdofsAt_eq_of_same hs m.body1, statusNdofsAt_eq_of_same hs m.body2]

theorem manifoldScalars_eq_of_same {cm : ColliderContactManifold → Nat}
    {bs bs' : BodySet R} (hs : SameUpToCompanion bs bs')
    (m : ColliderContactManifold) :
    manifoldScalars cm bs m = manifoldScalars cm bs' m := by
  unfold manifoldScalars
  rw [statusNdofsAt_eq_of_same hs m.body1, statusNdofsAt_eq_of_same hs m.body2]

theorem pairedJacobianSize_eq_of_same {cm : ColliderContactManifold → Nat}
    {bs bs' : BodySet R} (hs : SameUpToCompanion bs bs')
    (joints : List (JointConstraint R))
    (manifolds : List ColliderContactManifold) :
    pairedJacobianSize cm bs joints manifolds =
      pairedJacobianSize cm bs' joints manifolds := by
  unfold pairedJacobianSize
  have hj : joints.filter (fun g => jointCounted bs g && !jointIsGround bs g) =
      joints.filter (fun g => jointCounted bs' g && !jointIsGround bs' g) :=
    List.filter_congr (fun g _ => by
      rw [jointCounted_eq_of_same hs g, jointIsGround_eq_of_same hs g])
  have hm : manifolds.filter
        (fun m => manifoldCounted bs m && !manifoldIsGround bs m) =
      manifolds.filter
        (fun m => manifoldCounted bs' m && !manifoldIsGround bs' m) :=
    List.filter_congr (fun m _ => by
      rw [manifoldCounted_eq_of_same hs m, manifoldIsGround_eq_of_same hs m])
  rw [hj, hm,
    List.map_congr_left (fun g _ => jointScalars_eq_of_same hs g),
    List.map_congr_left (fun m _ => manifoldScalars_eq_of_same hs m)]

theorem groundJacobianSize_eq_of_same {cm : ColliderContactManifold → Nat}
    {bs bs' : BodySet R} (hs : SameUpToCompanion bs bs')
    (joints : List (JointConstraint R))
    (manifolds : List ColliderContactManifold) :
    groundJacobianSize cm bs joints manifolds =
      groundJacobianSize cm bs' joints manifolds := by
  unfold groundJacobianSize
  have hj : joints.filter (fun g => jointCounted bs g && jointIsGround bs g) =
      joints.filter (fun g => jointCounted bs' g && jointIsGround bs' g) :=
    List.filter_congr (fun g _ => by
      rw [jointCounted_eq_of_same hs g, jointIsGround_eq_of_same hs g])
  have hm : manifolds.filter
        (fun m => manifoldCounted bs m && manifoldIsGround bs m) =
      manifolds.filter
        (fun m => manifoldCounted bs' m && manifoldIsGround bs' m) :=
    List.filter_congr (fun m _ => by
      rw [manifoldCounted_eq_of_same hs m, manifoldIsGround_eq_of_same hs m])
  rw [hj, hm,
    List.map_congr_left (fun g _ => jointScalars_eq_of_same hs g),
    List.map_congr_left (fun m _ => manifoldScalars_eq_of_same hs m)]

theorem sizes_eq_paired_ground (cm : ColliderContactManifold → Nat)
    (bs : BodySet R) (joints : List (JointConstraint R))
    (manifolds : List ColliderContactManifold) :
    (jointJacobianSizes bs joints).1 + (manifoldJacobianSizes cm bs manifolds).1 =
        pairedJacobianSize cm bs joints manifolds ∧
      (jointJacobianSizes bs joints).2 + (manifoldJacobianSizes cm bs manifolds).2 =
        groundJacobianSize cm bs joints manifolds := by
  rw [jointJacobianSizes_spec bs joints, manifoldJacobianSizes_spec cm bs manifolds]
  exact ⟨rfl, rfl⟩

/-! ## The velocity-update and integration pass -/

theorem resolves_setBody {bs : BodySet R} {h : Nat} {b : Body R}
    (hb : bodyAt bs h = some b) (b' : Body R) (g : Nat) :
    resolves (setBody bs h b') g = resolves bs g := by
  by_cases hg : g = h
  · subst hg
    unfold resolves
    rw [bodyAt_setBody_same _ (bodyAt_lt_length hb), hb]
    rfl
  · unfold resolves
    rw [bodyAt_setBody_ne _ hg]

theorem updateVelocities_untouched
    {integrateFn : IntegrationParameters R → Body R → Body R}
    {params : IntegrationParameters R} {extVels mjLambdaVel : List R} :
    ∀ (island : List Nat) (bs : BodySet R) (g : Nat), g ∉ island →
      bodyAt (updateVelocitiesAndIntegrate integrateFn params extVels
        mjLambdaVel bs island) g = bodyAt bs g := by
  intro island
  induction island with
  | nil => intro bs g _; rfl
  | cons h rest ih =>
    intro bs g hg
    have hgh : g ≠ h := fun e => hg (e ▸ List.mem_cons_self h rest)
    have hgr : g ∉ rest := fun e => hg (List.mem_cons_of_mem h e)
    cases hb : bodyAt bs h with
    | none =>
      simp only [updateVelocitiesAndIntegrate, hb]
      exact ih bs g hgr
    | some b =>
      simp only [updateVelocitiesAndIntegrate, hb]
      rw [ih _ g hgr]
      exact bodyAt_setBody_ne _ hgh

theorem updateVelocities_stale
    {integrateFn : IntegrationParameters R → Body R → Body R}
    {params : IntegrationParameters R} {extVels mjLambdaVel : List R} :
    ∀ (island : List Nat) (bs : BodySet R) (g : Nat), bodyAt bs g = none →
      bodyAt (updateVelocitiesAndIntegrate integrateFn params extVels
        mjLambdaVel bs island) g = none := by
  intro island
  induction island with
  | nil => intro bs g hg; exact hg
  | cons h rest ih =>
    intro bs g hg
    cases hb : bodyAt bs h with
    | none =>
      simp only [updateVelocitiesAndIntegrate, hb]
      exact ih bs g hg
    | some b =>
      have hgh : g ≠ h := fun e => by rw [e, hb] at hg; exact Option.noConfusion hg
      simp only [updateVelocitiesAndIntegrate, hb]
      exact ih _ g (by rw [bodyAt_setBody_ne _ hgh]; exact hg)

theorem updateVelocities_spec
    {integrateFn : IntegrationParameters R → Body R → Body R}
    {params : IntegrationParameters R} {extVels mjLambdaVel : List R} :
    ∀ (island : List Nat) (bs : BodySet R), island.Nodup →
      ∀ h ∈ island, ∀ b : Body R, bodyAt bs h = some b →
      bodyAt (updateVelocitiesAndIntegrate integrateFn params extVels
          mjLambdaVel bs island) h =
        some (integratedBody integrateFn params extVels mjLambdaVel b) := by
  intro island
  induction island with
  | nil =>
    intro bs _ h hm
    exact absurd hm (by simp)
  | cons g rest ih =>
    intro bs hnd h hm b hb
    have hnotin : g ∉ rest := (List.nodup_cons.mp hnd).1
    have hndr : rest.Nodup := (List.nodup_cons.mp hnd).2
    rcases List.mem_cons.mp hm with rfl | hmr
    · simp only [updateVelocitiesAndIntegrate, hb]
      rw [updateVelocities_untouched rest _ h hnotin,
        bodyAt_setBody_same _ (bodyAt_lt_length hb)]
      rfl
    · have hgh : h ≠ g := fun e => hnotin (e ▸ hmr)
      cases hbg : bodyAt bs g with
      | none =>
        simp only [updateVelocitiesAndIntegrate, hbg]
        exact ih bs hndr h hmr b hb
      | some bg =>
        simp only [updateVelocitiesAndIntegrate, hbg]
        exact ih _ hndr h hmr b (by rw [bodyAt_setBody_ne _ hgh]; exact hb)

theorem updateVelocities_skips_stale
    {integrateFn : IntegrationParameters R → Body R → Body R}
    {params : IntegrationParameters R} {extVels mjLambdaVel : List R} :
    ∀ (island : List Nat) (bs : BodySet R),
      updateVelocitiesAndIntegrate integrateFn params extVels mjLambdaVel bs
          island =
        updateVelocitiesAndIntegrate integrateFn params extVels mjLambdaVel bs
          (island.filter (fun g => resolves bs g)) := by
  intro island
  induction island with
  | nil => intro bs; rfl
  | cons h rest ih =>
    intro bs
    cases hb : bodyAt bs h with
    | none =>
      have hres : resolves bs h = false := by simp [resolves, hb]
      rw [List.filter_cons]
      simp only [hres, if_false, Bool.false_eq_true]
      simp only [updateVelocitiesAndIntegrate, hb]
      exact ih bs
    | some b =>
      have hres : resolves bs h = true := by simp [resolves, hb]
      rw [List.filter_cons]
      simp only [hres, if_true]
      simp only [updateVelocitiesAndIntegrate, hb]
      rw [ih _]
      congr 1
      exact List.filter_congr fun g _ => (resolves_setBody hb _ g)

/-! ## Constraint generation and the step orchestrator -/

theorem genJointsLoop_jac_length {ext : StepExternals R}
    {params : IntegrationParameters R} {bsA : BodySet R} {ev : List R}
    (hpres : ∀ (g : JointConstraint R) (st : GenState R),
      ((ext.jointVelocityConstraints g params bsA ev st).jacobians).length =
        st.jacobians.length) :
    ∀ (joints : List (JointConstraint R)) (st : GenState R),
      ((genJointsLoop ext params bsA ev joints st).jacobians).length =
        st.jacobians.length := by
  intro joints
  induction joints with
  | nil => intro st; rfl
  | cons g rest ih =>
    intro st
    simp only [genJointsLoop]
    by_cases ha : g.active = true
    · rw [if_pos ha, ih, hpres]
    · rw [if_neg ha, ih]

theorem assembleSystem_elim {ext : StepExternals R}
    {params : IntegrationParameters R} {bs : BodySet R}
    {joints : List (JointConstraint R)}
    {manifolds : List ColliderContactManifold} {island : List Nat}
    {s : MoreauJeanSolver R} {s1 : MoreauJeanSolver R} {bs1 : BodySet R}
    (hok : assembleSystem ext params bs joints manifolds island s =
      .ok (s1, bs1)) :
    ∃ pre, assemblePre ext.cmNumVelocityConstraints params bs joints manifolds
        island s = .ok pre ∧
      bs1 = pre.bodies ∧
      s1 = { jacobians := (ext.contactConstraints params pre.bodies pre.extVels
                manifolds (genJointsLoop ext params pre.bodies pre.extVels
                  joints ⟨pre.groundJId, pre.jId, pre.jacobians,
                    pre.constraints⟩)).jacobians,
             mjLambdaVel := pre.mjLambdaVel,
             extVels := pre.extVels,
             constraints := (ext.contactConstraints params pre.bodies
                pre.extVels manifolds (genJointsLoop ext params pre.bodies
                  pre.extVels joints ⟨pre.groundJId, pre.jId, pre.jacobians,
                    pre.constraints⟩)).constraints,
             internalConstraints := pre.internalConstraints } := by
  unfold assembleSystem at hok
  cases hpre : assemblePre ext.cmNumVelocityConstraints params bs joints
      manifolds island s with
  | error e => rw [hpre] at hok; exact Except.noConfusion hok
  | ok pre =>
    rw [hpre] at hok
    simp only [Except.ok.injEq, Prod.mk.injEq] at hok
    exact ⟨pre, rfl, hok.2.symm, hok.1.symm⟩

theorem assembleSystem_error {ext : StepExternals R}
    {params : IntegrationParameters R} {bs : BodySet R}
    {joints : List (JointConstraint R)}
    {manifolds : List ColliderContactManifold} {island : List Nat}
    {s : MoreauJeanSolver R} (hbad : islandOkB bs island = false) :
    assembleSystem ext params bs joints manifolds island s =
      .error assertMsg := by
  unfold assembleSystem
  rw [assemblePre_error hbad]

theorem assembleSystem_ok {ext : StepExternals R}
    {params : IntegrationParameters R} {bs : BodySet R}
    {joints : List (JointConstraint R)}
    {manifolds : List ColliderContactManifold} {island : List Nat}
    {s : MoreauJeanSolver R} (hgood : islandOkB bs island = true) :
    ∃ s1 bs1, assembleSystem ext params bs joints manifolds island s =
      .ok (s1, bs1) := by
  obtain ⟨pre, hpre⟩ := @assemblePre_ok R _ ext.cmNumVelocityConstraints
    params bs joints manifolds island s hgood
  exact ⟨_, _, by unfold assembleSystem; rw [hpre]⟩

theorem step_error {ext : StepExternals R}
    {params : IntegrationParameters R} {bs : BodySet R}
    {joints : List (JointConstraint R)}
    {manifolds : List ColliderContactManifold} {island : List Nat}
    {s : MoreauJeanSolver R} (hbad : islandOkB bs island = false) :
    step ext params bs joints manifolds island s = .error assertMsg := by
  unfold step
  rw [assembleSystem_error hbad]

theorem step_ok {ext : StepExternals R}
    {params : IntegrationParameters R} {bs : BodySet R}
    {joints : List (JointConstraint R)}
    {manifolds : List ColliderContactManifold} {island : List Nat}
    {s : MoreauJeanSolver R} (hgood : islandOkB bs island = true) :
    ∃ out, step ext params bs joints manifolds island s = .ok out := by
  obtain ⟨s1, bs1, hA⟩ := @assembleSystem_ok R _ ext params bs joints
    manifolds island s hgood
  exact ⟨_, by unfold step; rw [hA]⟩

/-! ## The claims -/

/-- C3: each call to `step` executes exactly the phase sequence assemble,
velocity solve, impulse caching, velocity update and integration, position
solve, in that order, once per tick: whenever `step` returns, its phase
trace is exactly that five-phase sequence. -/
theorem step_phase_order (ext : StepExternals R)
    (params : IntegrationParameters R) (bs : BodySet R)
    (joints : List (JointConstraint R))
    (manifolds : List ColliderContactManifold) (island : List Nat)
    (s : MoreauJeanSolver R) (out : StepOutput R)
    (hstep : step ext params bs joints manifolds island s = .ok out) :
    out.trace = [Phase.assemble, Phase.solveVelocity, Phase.cacheImpulses,
      Phase.integrate, Phase.solvePosition] := by
  unfold step at hstep
  cases hA : assembleSystem ext params bs joints manifolds island s with
  | error e => rw [hA] at hstep; exact Except.noConfusion hstep
  | ok p =>
    obtain ⟨s1, bs1⟩ := p
    rw [hA] at hstep
    simp only [Except.ok.injEq] at hstep
    rw [← hstep]
    rfl

/-- C3 witness: on the concrete scenario the step succeeds and its trace is
the five-phase sequence. -/
theorem step_phase_order_witness :
    ∃ out, step extW paramsW bsW jointsW manifoldsW islandW solverW =
        .ok out ∧
      out.trace = [Phase.assemble, Phase.solveVelocity, Phase.cacheImpulses,
        Phase.integrate, Phase.solvePosition] := by
  obtain ⟨out, hout⟩ := @step_ok ℤ _ extW paramsW bsW jointsW manifoldsW
    islandW solverW (by decide)
  exact ⟨out, hout, step_phase_order extW paramsW bsW jointsW manifoldsW
    islandW solverW out hout⟩

/-- C4: if some island body resolves to a body with zero status-dependent
DOFs, assembly (and hence the whole step) aborts with the fatal assertion
error — in the embedding the error short-circuits before constraint
generation and before any body is integrated; if every resolvable island
body has nonzero status-dependent DOFs, the fatal branch is unreachable and
the step succeeds. -/
theorem assemble_zero_dof_fatal (ext : StepExternals R)
    (params : IntegrationParameters R) (bs : BodySet R)
    (joints : List (JointConstraint R))
    (manifolds : List ColliderContactManifold) (island : List Nat)
    (s : MoreauJeanSolver R) :
    ((∃ h ∈ island, ∃ b : Body R, bodyAt bs h = some b ∧
        statusDependentNdofs b = 0) →
      assembleSystem ext params bs joints manifolds island s =
          .error assertMsg ∧
        step ext params bs joints manifolds island s = .error assertMsg) ∧
    ((∀ h ∈ island, ∀ b : Body R, bodyAt bs h = some b →
        statusDependentNdofs b ≠ 0) →
      ∃ out, step ext params bs joints manifolds island s = .ok out) := by
  constructor
  · rintro ⟨h, hm, b, hb, hz⟩
    have hbad : islandOkB bs island = false := by
      cases hOk : islandOkB bs island with
      | false => rfl
      | true => exact absurd hz (islandOkB_iff.mp hOk h hm b hb)
    exact ⟨assembleSystem_error hbad, step_error hbad⟩
  · intro hall
    exact step_ok (islandOkB_iff.mpr hall)

/-- C4 witness: the island containing the non-dynamic `bodyC` aborts with
the assertion message, while the well-formed island steps successfully. -/
theorem assemble_zero_dof_fatal_witness :
    (assembleSystem extW paramsW bsW jointsW manifoldsW islandBadW solverW =
        .error assertMsg ∧
      step extW paramsW bsW jointsW manifoldsW islandBadW solverW =
        .error assertMsg) ∧
    ∃ out, step extW paramsW bsW jointsW manifoldsW islandW solverW =
      .ok out := by
  constructor
  · exact (assemble_zero_dof_fatal extW paramsW bsW jointsW manifoldsW
      islandBadW solverW).1 ⟨3, by decide, bodyC, by decide, by decide⟩
  · exact (assemble_zero_dof_fatal extW paramsW bsW jointsW manifoldsW
      islandW solverW).2 (islandOkB_iff.mp (by decide))

/-- C10: after a successful assembly the internal-constraint body list is
exactly the resolvable island bodies, in island order, whose
`has_active_internal_constraints` flag is set — independently of whatever
the list (or any other solver state) held before, since it is cleared at
the start of assembly. -/
theorem internal_constraint_list (ext : StepExternals R)
    (params : IntegrationParameters R) (bs : BodySet R)
    (joints : List (JointConstraint R))
    (manifolds : List ColliderContactManifold) (island : List Nat)
    (s : MoreauJeanSolver R) (s1 : MoreauJeanSolver R) (bs1 : BodySet R)
    (hsys : assembleSystem ext params bs joints manifolds island s =
      .ok (s1, bs1)) :
    s1.internalConstraints =
      island.filter (fun h => resolves bs h && hasInternalAt bs h) := by
  obtain ⟨pre, hpre, hbs1, hs1⟩ := assembleSystem_elim hsys
  obtain ⟨bs1A, sys, intl, ha, hpreeq⟩ := assemblePre_elim hpre
  have hintl := assignLoop_internal ha
  rw [hs1, hpreeq]
  simpa using hintl

/-- C10 witness: on the concrete scenario the list is `[0]` — the stale
handle and the flagless body are excluded, and the `[99]` entry of the
previous state is gone. -/
theorem internal_constraint_list_witness :
    ∃ s1 bs1, assembleSystem extW paramsW bsW jointsW manifoldsW islandW
        solverW = .ok (s1, bs1) ∧
      s1.internalConstraints = [0] := by
  obtain ⟨s1, bs1, hA⟩ := @assembleSystem_ok ℤ _ extW paramsW bsW jointsW
    manifoldsW islandW solverW (by decide)
  refine ⟨s1, bs1, hA, ?_⟩
  rw [internal_constraint_list extW paramsW bsW jointsW manifoldsW islandW
    solverW s1 bs1 hA]
  decide

/-- C9: when the velocity solver is invoked inside `step`, the
velocity-correction vector it receives is the freshly allocated zero vector
of the island's total DOF length: after assembly `mj_lambda_vel` is
`zeros(island DOFs)`, and `step` passes exactly that vector (together with
the constraint set holding the cached impulses) to the SOR-Prox solve,
whose output becomes the step's correction vector. -/
theorem mj_lambda_zero_at_solve (ext : StepExternals R)
    (params : IntegrationParameters R) (bs : BodySet R)
    (joints : List (JointConstraint R))
    (manifolds : List ColliderContactManifold) (island : List Nat)
    (s : MoreauJeanSolver R) (s1 : MoreauJeanSolver R) (bs1 : BodySet R)
    (hsys : assembleSystem ext params bs joints manifolds island s =
      .ok (s1, bs1)) :
    s1.mjLambdaVel = List.replicate (islandNdofs bs island) (0 : R) ∧
    ∀ out, step ext params bs joints manifolds island s = .ok out →
      out.solver.mjLambdaVel =
        (ext.sorProxSolve bs1 s1.constraints s1.internalConstraints
          s1.mjLambdaVel s1.jacobians params.maxVelocityIterations).2 := by
  obtain ⟨pre, hpre, hbs1, hs1⟩ := assembleSystem_elim hsys
  obtain ⟨bs1A, sys, intl, ha, hpreeq⟩ := assemblePre_elim hpre
  constructor
  · rw [hs1, hpreeq]
    have := assignLoop_sys ha
    simp only [Nat.zero_add] at this
    rw [this]
  · intro out hstep
    unfold step at hstep
    rw [hsys] at hstep
    simp only [Except.ok.injEq] at hstep
    rw [← hstep]

/-- C9 witness: on the concrete scenario (total DOFs 3, previous correction
vector `[11]`) the vector handed to the solver is `[0, 0, 0]`. -/
theorem mj_lambda_zero_at_solve_witness :
    ∃ s1 bs1, assembleSystem extW paramsW bsW jointsW manifoldsW islandW
        solverW = .ok (s1, bs1) ∧
      s1.mjLambdaVel = [(0 : ℤ), 0, 0] := by
  obtain ⟨s1, bs1, hA⟩ := @assembleSystem_ok ℤ _ extW paramsW bsW jointsW
    manifoldsW islandW solverW (by decide)
  refine ⟨s1, bs1, hA, ?_⟩
  rw [(mj_lambda_zero_at_solve extW paramsW bsW jointsW manifoldsW islandW
    solverW s1 bs1 hA).1]
  decide

/-- C2: after a successful assembly both step vectors — the
velocity-correction vector `mj_lambda_vel` and the external-acceleration
vector `ext_vels` — have length equal to the sum of the status-dependent
DOF counts of the island's resolvable bodies. -/
theorem dof_accounting (ext : StepExternals R)
    (params : IntegrationParameters R) (bs : BodySet R)
    (joints : List (JointConstraint R))
    (manifolds : List ColliderContactManifold) (island : List Nat)
    (s : MoreauJeanSolver R) (s1 : MoreauJeanSolver R) (bs1 : BodySet R)
    (hnd : island.Nodup) (hfit : accsFitB bs island = true)
    (hsys : assembleSystem ext params bs joints manifolds island s =
      .ok (s1, bs1)) :
    s1.mjLambdaVel.length = islandNdofs bs island ∧
      s1.extVels.length = islandNdofs bs island := by
  obtain ⟨pre, hpre, hbs1, hs1⟩ := assembleSystem_elim hsys
  obtain ⟨bs1A, sys, intl, ha, hpreeq⟩ := assemblePre_elim hpre
  have hgood : islandOkB bs island = true := by
    cases hOk : islandOkB bs island with
    | true => rfl
    | false =>
      rw [assignLoop_error_of_not hOk] at ha
      exact Except.noConfusion ha
  have hsys0 := assignLoop_sys ha
  simp only [Nat.zero_add] at hsys0
  have hsame : SameUpToCompanion bs bs1A := assignLoop_same ha
  have hH1 := assembled_H1 hnd hgood hfit ha
  have htiles := @buildExtVels_tiles R _ params.dt island bs1A [] (by
    intro i hi b hb
    have := hH1 i hi b hb
    simpa using this)
  constructor
  · rw [hs1, hpreeq]
    simp [hsys0]
  · rw [hs1, hpreeq]
    have hrepl : List.replicate sys (0 : R) =
        ([] : List R) ++ List.replicate (islandNdofs bs1A island) 0 := by
      rw [hsys0, islandNdofs_eq_of_same hsame island]
      simp
    rw [hrepl, htiles]
    simp only [List.nil_append]
    rw [extBlocks_flatten_length island bs1A (fun i hi b hb => (hH1 i hi b hb).2)]
    exact (islandNdofs_eq_of_same hsame island).symm

/-- C2 witness: on the concrete scenario (DOF counts 2 and 1, one stale
handle) both vectors have length 3. -/
theorem dof_accounting_witness :
    ∃ s1 bs1, assembleSystem extW paramsW bsW jointsW manifoldsW islandW
        solverW = .ok (s1, bs1) ∧
      s1.mjLambdaVel.length = 3 ∧ s1.extVels.length = 3 := by
  obtain ⟨s1, bs1, hA⟩ := @assembleSystem_ok ℤ _ extW paramsW bsW jointsW
    manifoldsW islandW solverW (by decide)
  obtain ⟨h1, h2⟩ := dof_accounting extW paramsW bsW jointsW manifoldsW
    islandW solverW s1 bs1 (by decide) (by decide) hA
  exact ⟨s1, bs1, hA, by rw [h1]; decide, by rw [h2]; decide⟩

/-- C1: after assembly, the Jacobian buffer is allocated with total length
equal to the sum, over active joints and over contact manifolds whose
bodies resolve, of `num_velocity_constraints × 2 × (ndofs1 + ndofs2)`; a
constraint is counted in the ground region exactly when at least one of
its bodies has zero status-dependent DOFs, otherwise in the paired region;
the paired write cursor starts at `0` and the ground write cursor at the
paired size, so the paired region is the prefix `[0, paired)` and the
ground region the suffix; and the length is unchanged by constraint
generation whenever the generators write in place (the spec's contract). -/
theorem jacobian_sizing (ext : StepExternals R)
    (params : IntegrationParameters R) (bs : BodySet R)
    (joints : List (JointConstraint R))
    (manifolds : List ColliderContactManifold) (island : List Nat)
    (s : MoreauJeanSolver R) (pre : AssembledSystem R)
    (s1 : MoreauJeanSolver R) (bs1 : BodySet R)
    (hpre : assemblePre ext.cmNumVelocityConstraints params bs joints
      manifolds island s = .ok pre)
    (hsys : assembleSystem ext params bs joints manifolds island s =
      .ok (s1, bs1))
    (hjlen : ∀ (g : JointConstraint R) (st : GenState R),
      ((ext.jointVelocityConstraints g params pre.bodies pre.extVels
        st).jacobians).length = st.jacobians.length)
    (hclen : ∀ st : GenState R,
      ((ext.contactConstraints params pre.bodies pre.extVels manifolds
        st).jacobians).length = st.jacobians.length) :
    pre.jacobians.length =
        pairedJacobianSize ext.cmNumVelocityConstraints bs joints manifolds +
          groundJacobianSize ext.cmNumVelocityConstraints bs joints manifolds ∧
      s1.jacobians.length = pre.jacobians.length ∧
      pre.jId = 0 ∧
      pre.groundJId =
        pairedJacobianSize ext.cmNumVelocityConstraints bs joints manifolds := by
  obtain ⟨bs1A, sys, intl, ha, hpreeq⟩ := assemblePre_elim hpre
  have hsame : SameUpToCompanion bs bs1A := assignLoop_same ha
  obtain ⟨hps, hgs⟩ := sizes_eq_paired_ground ext.cmNumVelocityConstraints
    bs1A joints manifolds
  have hpe : pairedJacobianSize ext.cmNumVelocityConstraints bs1A joints
      manifolds = pairedJacobianSize ext.cmNumVelocityConstraints bs joints
      manifolds :=
    (pairedJacobianSize_eq_of_same hsame joints manifolds).symm
  have hge : groundJacobianSize ext.cmNumVelocityConstraints bs1A joints
      manifolds = groundJacobianSize ext.cmNumVelocityConstraints bs joints
      manifolds :=
    (groundJacobianSize_eq_of_same hsame joints manifolds).symm
  refine ⟨?_, ?_, ?_, ?_⟩
  · rw [hpreeq]
    simp only [resizeVec_length]
    rw [hps, hgs, hpe, hge]
  · obtain ⟨pre2, hpre2, hbs1, hs1⟩ := assembleSystem_elim hsys
    have : pre2 = pre := by
      rw [hpre] at hpre2
      exact (Except.ok.injEq _ _ ▸ hpre2).symm
    subst this
    rw [hs1]
    simp only
    rw [hclen, genJointsLoop_jac_length hjlen]
  · rw [hpreeq]
  · rw [hpreeq]
    simp only
    rw [hps, hpe]

/-- C1 witness: on the concrete scenario the paired size is 30, the ground
size is 16, the buffer is allocated with 46 scalars, and the cursors start
at 0 and 30. -/
theorem jacobian_sizing_witness :
    ∃ pre s1 bs1,
      assemblePre extW.cmNumVelocityConstraints paramsW bsW jointsW
          manifoldsW islandW solverW = .ok pre ∧
        assembleSystem extW paramsW bsW jointsW manifoldsW islandW solverW =
          .ok (s1, bs1) ∧
        pre.jacobians.length = 46 ∧ s1.jacobians.length = 46 ∧
        pre.jId = 0 ∧ pre.groundJId = 30 := by
  obtain ⟨pre, hpre⟩ := @assemblePre_ok ℤ _ extW.cmNumVelocityConstraints
    paramsW bsW jointsW manifoldsW islandW solverW (by decide)
  obtain ⟨s1, bs1, hA⟩ := @assembleSystem_ok ℤ _ extW paramsW bsW jointsW
    manifoldsW islandW solverW (by decide)
  obtain ⟨h1, h2, h3, h4⟩ := jacobian_sizing extW paramsW bsW jointsW
    manifoldsW islandW solverW pre s1 bs1 hpre hA (fun g st => rfl)
    (fun st => rfl)
  have hpaired : pairedJacobianSize extW.cmNumVelocityConstraints bsW
      jointsW manifoldsW = 30 := by decide
  have hground : groundJacobianSize extW.cmNumVelocityConstraints bsW
      jointsW manifoldsW = 16 := by decide
  refine ⟨pre, s1, bs1, hpre, hA, ?_, ?_, h3, ?_⟩
  · rw [h1, hpaired, hground]
  · rw [h2, h1, hpaired, hground]
  · rw [h4, hpaired]

/-- C8 counterexample: the Jacobian buffer is resized, not zeroed — with a
previous-step buffer `[5, -7]` and a required size of 46, the buffer right
before constraint generation still starts with the stale scalars `5` and
`-7`, so "no scalar value in the Jacobian Buffer carries over from a
previous step" is false at that point. -/
theorem jacobian_carryover_counterexample :
    (assemblePre extW.cmNumVelocityConstraints paramsW bsW jointsW
        manifoldsW islandW solverW).map AssembledSystem.jacobians =
      .ok ((5 : ℤ) :: (-7 : ℤ) :: List.replicate 44 0) := by
  rfl

/-- C8 (amended): the Constraint Set is cleared to empty before any
constraint is generated, and the correction vector is freshly
zero-allocated; the Jacobian buffer, however, is resized in place to the
exact required total — scalars in the retained prefix carry over from the
previous step until constraint generation overwrites them, and only the
newly grown slots are zero-initialized. -/
theorem constraint_set_rebuilt (ext : StepExternals R)
    (params : IntegrationParameters R) (bs : BodySet R)
    (joints : List (JointConstraint R))
    (manifolds : List ColliderContactManifold) (island : List Nat)
    (s : MoreauJeanSolver R) (pre : AssembledSystem R)
    (hpre : assemblePre ext.cmNumVelocityConstraints params bs joints
      manifolds island s = .ok pre) :
    pre.constraints = ConstraintSet.empty ∧
      pre.jacobians =
        s.jacobians.take
            (pairedJacobianSize ext.cmNumVelocityConstraints bs joints
                manifolds +
              groundJacobianSize ext.cmNumVelocityConstraints bs joints
                manifolds) ++
          List.replicate
            ((pairedJacobianSize ext.cmNumVelocityConstraints bs joints
                manifolds +
              groundJacobianSize ext.cmNumVelocityConstraints bs joints
                manifolds) - s.jacobians.length) (0 : R) ∧
      pre.mjLambdaVel = List.replicate (islandNdofs bs island) (0 : R) := by
  obtain ⟨bs1A, sys, intl, ha, hpreeq⟩ := assemblePre_elim hpre
  have hsame : SameUpToCompanion bs bs1A := assignLoop_same ha
  obtain ⟨hps, hgs⟩ := sizes_eq_paired_ground ext.cmNumVelocityConstraints
    bs1A joints manifolds
  have hpe : pairedJacobianSize ext.cmNumVelocityConstraints bs1A joints
      manifolds = pairedJacobianSize ext.cmNumVelocityConstraints bs joints
      manifolds :=
    (pairedJacobianSize_eq_of_same hsame joints manifolds).symm
  have hge : groundJacobianSize ext.cmNumVelocityConstraints bs1A joints
      manifolds = groundJacobianSize ext.cmNumVelocityConstraints bs joints
      manifolds :=
    (groundJacobianSize_eq_of_same hsame joints manifolds).symm
  have hsys0 := assignLoop_sys ha
  simp only [Nat.zero_add] at hsys0
  refine ⟨by rw [hpreeq], ?_, ?_⟩
  · rw [hpreeq]
    simp only [resizeVec]
    rw [hps, hgs, hpe, hge]
  · rw [hpreeq]
    simp only
    rw [hsys0]

/-- C8 amended witness: on the concrete scenario the constraint set is
empty before generation, the buffer is the stale prefix `[5, -7]` padded
with 44 zeros, and the correction vector is `[0, 0, 0]`. -/
theorem constraint_set_rebuilt_witness :
    ∃ pre, assemblePre extW.cmNumVelocityConstraints paramsW bsW jointsW
        manifoldsW islandW solverW = .ok pre ∧
      pre.constraints = ConstraintSet.empty ∧
      pre.jacobians = (5 : ℤ) :: (-7 : ℤ) :: List.replicate 44 0 ∧
      pre.mjLambdaVel = [(0 : ℤ), 0, 0] := by
  obtain ⟨pre, hpre⟩ := @assemblePre_ok ℤ _ extW.cmNumVelocityConstraints
    paramsW bsW jointsW manifoldsW islandW solverW (by decide)
  obtain ⟨h1, h2, h3⟩ := constraint_set_rebuilt extW paramsW bsW jointsW
    manifoldsW islandW solverW pre hpre
  refine ⟨pre, hpre, h1, ?_, ?_⟩
  · rw [h2]
    decide
  · rw [h3]
    decide

theorem assemblePre_skips_stale {cm : ColliderContactManifold → Nat}
    {params : IntegrationParameters R} {bs : BodySet R}
    {joints : List (JointConstraint R)}
    {manifolds : List ColliderContactManifold} {island : List Nat}
    {s : MoreauJeanSolver R} :
    assemblePre cm params bs joints manifolds island s =
      assemblePre cm params bs joints manifolds
        (island.filter (fun g => resolves bs g)) s := by
  unfold assemblePre
  rw [assignLoop_skips_stale]
  cases ha : assignLoop bs 0 [] (island.filter (fun g => resolves bs g)) with
  | error e => rfl
  | ok out =>
    obtain ⟨bs1, sys, intl⟩ := out
    have hsame : SameUpToCompanion bs bs1 := assignLoop_same ha
    have hev : buildExtVels bs1 params.dt island
        (List.replicate sys (0 : R)) =
        buildExtVels bs1 params.dt (island.filter (fun g => resolves bs g))
          (List.replicate sys (0 : R)) := by
      rw [buildExtVels_skips_stale bs1 params.dt island]
      congr 1
      exact List.filter_congr fun g _ => (resolves_eq_of_same hsame g).symm
    simp only [hev]

theorem assembleSystem_skips_stale {ext : StepExternals R}
    {params : IntegrationParameters R} {bs : BodySet R}
    {joints : List (JointConstraint R)}
    {manifolds : List ColliderContactManifold} {island : List Nat}
    {s : MoreauJeanSolver R} :
    assembleSystem ext params bs joints manifolds island s =
      assembleSystem ext params bs joints manifolds
        (island.filter (fun g => resolves bs g)) s := by
  unfold assembleSystem
  rw [assemblePre_skips_stale]

/-- C5: during a successful assembly each resolvable island body is
assigned a companion id equal to the sum of the status-dependent DOF counts
of the resolvable bodies preceding it in island order; and island bodies
whose handles do not resolve are skipped without error in every phase that
iterates the island — assembly (companion numbering, external-acceleration
build) and integration behave identically on the island and on the island
with unresolvable handles filtered out. -/
theorem companion_ids_and_stale_skip (ext : StepExternals R)
    (params : IntegrationParameters R) (bs : BodySet R)
    (joints : List (JointConstraint R))
    (manifolds : List ColliderContactManifold) (island : List Nat)
    (s : MoreauJeanSolver R) (s1 : MoreauJeanSolver R) (bs1 : BodySet R)
    (hnd : island.Nodup)
    (hsys : assembleSystem ext params bs joints manifolds island s =
      .ok (s1, bs1)) :
    (∀ i (hi : i < island.length) (b : Body R),
      bodyAt bs island[i] = some b →
      bodyAt bs1 island[i] =
        some { b with companionId := islandNdofs bs (island.take i) }) ∧
    assembleSystem ext params bs joints manifolds island s =
      assembleSystem ext params bs joints manifolds
        (island.filter (fun g => resolves bs g)) s ∧
    ∀ (fn : IntegrationParameters R → Body R → Body R) (e m : List R)
      (bsA : BodySet R),
      updateVelocitiesAndIntegrate fn params e m bsA island =
        updateVelocitiesAndIntegrate fn params e m bsA
          (island.filter (fun g => resolves bsA g)) := by
  obtain ⟨pre, hpre, hbs1, hs1⟩ := assembleSystem_elim hsys
  obtain ⟨bs1A, sys, intl, ha, hpreeq⟩ := assemblePre_elim hpre
  refine ⟨?_, assembleSystem_skips_stale, ?_⟩
  · intro i hi b hb
    have := assignLoop_companion hnd ha i hi b hb
    rw [hbs1, hpreeq]
    simpa using this
  · intro fn e m bsA
    exact updateVelocities_skips_stale island bsA

/-- C5 witness: in the scenario the third island entry (handle 1, after a
2-DOF body and a stale handle) gets companion id 2, and integrating over
the island equals integrating over the island with the stale handle
dropped. -/
theorem companion_ids_and_stale_skip_witness :
    ∃ s1 bs1, assembleSystem extW paramsW bsW jointsW manifoldsW islandW
        solverW = .ok (s1, bs1) ∧
      bodyAt bs1 1 = some { bodyB with companionId := 2 } ∧
      updateVelocitiesAndIntegrate (fun _ b => b) paramsW [10, 20, 30]
          [1, 2, 3] bsW2 islandW =
        updateVelocitiesAndIntegrate (fun _ b => b) paramsW [10, 20, 30]
          [1, 2, 3] bsW2 (islandW.filter (fun g => resolves bsW2 g)) := by
  obtain ⟨s1, bs1, hA⟩ := @assembleSystem_ok ℤ _ extW paramsW bsW jointsW
    manifoldsW islandW solverW (by decide)
  obtain ⟨h1, h2, h3⟩ := companion_ids_and_stale_skip extW paramsW bsW
    jointsW manifoldsW islandW solverW s1 bs1 (by decide) hA
  refine ⟨s1, bs1, hA, ?_, h3 (fun _ b => b) [10, 20, 30] [1, 2, 3] bsW2⟩
  have hb := h1 2 (by decide) bodyB (by decide)
  have hcomp : islandNdofs bsW (islandW.take 2) = 2 := by decide
  rw [hcomp] at hb
  exact hb

/-- C6: the velocity-update phase maps every resolvable island body to
exactly its integrated update — generalized velocity plus the `ext_vels`
block and the `mj_lambda_vel` block at its companion id with its DOF count,
then the body's own `integrate` — and mutates nothing else: handles outside
the island are untouched and stale island handles stay stale. -/
theorem velocity_update_integrates (fn : IntegrationParameters R → Body R → Body R)
    (params : IntegrationParameters R) (extVels mjLambdaVel : List R)
    (bs : BodySet R) (island : List Nat) (hnd : island.Nodup) :
    (∀ h ∈ island, ∀ b : Body R, bodyAt bs h = some b →
      bodyAt (updateVelocitiesAndIntegrate fn params extVels mjLambdaVel bs
          island) h =
        some (integratedBody fn params extVels mjLambdaVel b)) ∧
    (∀ g, g ∉ island →
      bodyAt (updateVelocitiesAndIntegrate fn params extVels mjLambdaVel bs
        island) g = bodyAt bs g) ∧
    ∀ h ∈ island, bodyAt bs h = none →
      bodyAt (updateVelocitiesAndIntegrate fn params extVels mjLambdaVel bs
        island) h = none := by
  refine ⟨?_, ?_, ?_⟩
  · intro h hm b hb
    exact updateVelocities_spec island bs hnd h hm b hb
  · intro g hg
    exact updateVelocities_untouched island bs g hg
  · intro h _ hb
    exact updateVelocities_stale island bs h hb

/-- C6 witness: with correction vector `[1, 2, 3]`, external accelerations
`[10, 20, 30]` and identity integration, the 2-DOF body's velocity `[1, 2]`
becomes `[12, 24]`, the 1-DOF body's `[5]` becomes `[38]`, the stale handle
stays stale, and the body outside the island is untouched. -/
theorem velocity_update_integrates_witness :
    bodyAt (updateVelocitiesAndIntegrate (fun _ b => b) paramsW [10, 20, 30]
        [1, 2, 3] bsW2 islandW) 0 =
      some { bodyA with companionId := 0, vel := [12, 24] } ∧
    bodyAt (updateVelocitiesAndIntegrate (fun _ b => b) paramsW [10, 20, 30]
        [1, 2, 3] bsW2 islandW) 1 =
      some { bodyB with companionId := 2, vel := [38] } ∧
    bodyAt (updateVelocitiesAndIntegrate (fun _ b => b) paramsW [10, 20, 30]
        [1, 2, 3] bsW2 islandW) 2 = none ∧
    bodyAt (updateVelocitiesAndIntegrate (fun _ b => b) paramsW [10, 20, 30]
        [1, 2, 3] bsW2 islandW) 3 = bodyAt bsW2 3 := by
  obtain ⟨h1, h2, h3⟩ := velocity_update_integrates (fun _ b => b) paramsW
    [10, 20, 30] [1, 2, 3] bsW2 islandW (by decide)
  refine ⟨?_, ?_, ?_, ?_⟩
  · rw [h1 0 (by decide) { bodyA with companionId := 0 } (by decide)]
    decide
  · rw [h1 1 (by decide) { bodyB with companionId := 2 } (by decide)]
    decide
  · exact h3 2 (by decide) (by decide)
  · exact h2 3 (by decide)

/-- C7: after a successful assembly, the external-acceleration vector holds
`dt * generalized_acceleration` in each resolvable island body's block at
its companion id, and every entry not covered by such a block is zero (in
fact the blocks tile the whole vector, so the zero-entry condition is
vacuously satisfied). -/
theorem ext_accel_blocks (ext : StepExternals R)
    (params : IntegrationParameters R) (bs : BodySet R)
    (joints : List (JointConstraint R))
    (manifolds : List ColliderContactManifold) (island : List Nat)
    (s : MoreauJeanSolver R) (s1 : MoreauJeanSolver R) (bs1 : BodySet R)
    (hnd : island.Nodup) (hfit : accsFitB bs island = true)
    (hsys : assembleSystem ext params bs joints manifolds island s =
      .ok (s1, bs1)) :
    (∀ i (hi : i < island.length) (b : Body R),
      bodyAt bs1 island[i] = some b →
      rows s1.extVels b.companionId b.ndofs =
        b.acc.map (fun a => params.dt * a)) ∧
    ∀ k, k < s1.extVels.length →
      (∀ i (hi : i < island.length) (b : Body R),
        bodyAt bs1 island[i] = some b →
        k < b.companionId ∨ b.companionId + b.ndofs ≤ k) →
      s1.extVels[k]? = some (0 : R) := by
  obtain ⟨pre, hpre, hbs1, hs1⟩ := assembleSystem_elim hsys
  obtain ⟨bs1A, sys, intl, ha, hpreeq⟩ := assemblePre_elim hpre
  have hgood : islandOkB bs island = true := by
    cases hOk : islandOkB bs island with
    | true => rfl
    | false =>
      rw [assignLoop_error_of_not hOk] at ha
      exact Except.noConfusion ha
  have hsys0 := assignLoop_sys ha
  simp only [Nat.zero_add] at hsys0
  have hsame : SameUpToCompanion bs bs1A := assignLoop_same ha
  have hH1 := assembled_H1 hnd hgood hfit ha
  have hgood1 : islandOkB bs1A island = true := by
    rw [← islandOkB_eq_of_same hsame island]
    exact hgood
  have hstatus : ∀ i (hi : i < island.length) (b : Body R),
      bodyAt bs1A island[i] = some b →
      statusDependentNdofs b = b.ndofs := by
    intro i hi b hb
    exact status_eq_ndofs_of_ne_zero
      (islandOkB_iff.mp hgood1 island[i] (List.getElem_mem hi) b hb)
  have hbseq : bs1 = bs1A := by rw [hbs1, hpreeq]
  have hH1n : ∀ i (hi : i < island.length) (b : Body R),
      bodyAt bs1A island[i] = some b →
      b.companionId =
          (([] : List R)).length + islandNdofs bs1A (island.take i) ∧
        b.acc.length = statusDependentNdofs b := by
    intro i hi b hb
    have := hH1 i hi b hb
    simpa using this
  have hev : s1.extVels = ([] : List R) ++
      (extBlocks bs1A params.dt island).flatten := by
    rw [hs1]
    simp only
    rw [hpreeq]
    simp only
    have hrepl : List.replicate sys (0 : R) =
        ([] : List R) ++ List.replicate (islandNdofs bs1A island) 0 := by
      rw [hsys0, islandNdofs_eq_of_same hsame island]
      simp
    rw [hrepl, @buildExtVels_tiles R _ params.dt island bs1A [] hH1n]
  constructor
  · intro i hi b hb
    rw [hbseq] at hb
    have hr := @extBlocks_block_rows R _ params.dt island bs1A [] hH1n i hi b hb
    rw [hstatus i hi b hb] at hr
    rw [hev]
    exact hr
  · intro k hk hout
    exfalso
    have hlen : s1.extVels.length = islandNdofs bs1A island := by
      rw [hev]
      simp only [List.nil_append]
      exact extBlocks_flatten_length island bs1A
        (fun i hi b hb => (hH1n i hi b hb).2)
    rw [hlen] at hk
    obtain ⟨i, hi, b, hbi, hlo, hhi⟩ :=
      islandNdofs_coverage island bs1A 0 k
        (fun i hi b hb => by simpa using (hH1n i hi b hb).1) hk
    have := hout i hi b (by rw [hbseq]; exact hbi)
    rw [hstatus i hi b hbi] at hhi
    omega

/-- C7 witness: on the concrete scenario (`dt = 2`, accelerations `[3, 4]`
and `[6]`), the blocks of the external-acceleration vector are `[6, 8]` at
companion id 0 and `[12]` at companion id 2. -/
theorem ext_accel_blocks_witness :
    ∃ s1 bs1, assembleSystem extW paramsW bsW jointsW manifoldsW islandW
        solverW = .ok (s1, bs1) ∧
      rows s1.extVels 0 2 = [(6 : ℤ), 8] ∧
      rows s1.extVels 2 1 = [(12 : ℤ)] := by
  obtain ⟨s1, bs1, hA⟩ := @assembleSystem_ok ℤ _ extW paramsW bsW jointsW
    manifoldsW islandW solverW (by decide)
  have hmap : (assembleSystem extW paramsW bsW jointsW manifoldsW islandW
      solverW).map (fun p => p.2) = .ok bsW2 := by rfl
  rw [hA] at hmap
  simp only [Except.map, Except.ok.injEq] at hmap
  obtain ⟨hblocks, -⟩ := ext_accel_blocks extW paramsW bsW jointsW
    manifoldsW islandW solverW s1 bs1 (by decide) (by decide) hA
  have h0 := hblocks 0 (by decide) { bodyA with companionId := 0 }
    (by rw [hmap]; rfl)
  have h1 := hblocks 2 (by decide) { bodyB with companionId := 2 }
    (by rw [hmap]; rfl)
  exact ⟨s1, bs1, hA, h0, h1⟩
